import Mathlib

/-!
Verification of the framing and link layers of node-open-protocol-v2.

Byte buffers are modelled as `List Nat` (each element a byte value 0..255).
JavaScript strings obtained from `buffer.toString("ascii", a, b)` are modelled
as lists of character codes; Node's ascii decoder masks every byte with
`& 0x7F`, which is modelled by mapping `% 128` over the extracted slice.

The model of JavaScript's `Number(s)` (`jsNum`) covers the fragment exercised
by the protocol code: strings of ASCII whitespace-padded decimal digits map to
their value, the empty or all-whitespace string maps to 0, and any string
containing another character maps to `none` (NaN).  JavaScript's additional
numeric forms (signs, fractions, exponents, hex) never arise from the
fixed-width digit/space fields these codecs read or write, and every concrete
byte used in the theorems below stays inside the fragment where the two agree.
-/

/-- ASCII whitespace recognised by JavaScript's trimming (tab, LF, VT, FF, CR,
space); the non-ASCII whitespace code points cannot appear in a byte mask. -/
def isWsB (c : Nat) : Bool :=
  c == 9 || c == 10 || c == 11 || c == 12 || c == 13 || c == 32

/-- ASCII decimal digit test on a character code. -/
def isDigitB (c : Nat) : Bool :=
  48 ≤ c && c ≤ 57

/-- Model of JavaScript `String.prototype.trim`. -/
def jsTrim (l : List Nat) : List Nat :=
  ((l.dropWhile isWsB).reverse.dropWhile isWsB).reverse

/-- Value of a list of ASCII digit codes read in base 10. -/
def digitsVal (l : List Nat) : Nat :=
  l.foldl (fun a c => 10 * a + (c - 48)) 0

/-- Model of JavaScript `Number(s)` on the digit/space fragment: whitespace is
trimmed, the empty result is 0, an all-digit result is its decimal value, and
anything else is NaN (`none`). -/
def jsNum (l : List Nat) : Option Nat :=
  let t := jsTrim l
  if t.isEmpty then some 0
  else if t.all isDigitB then some (digitsVal t) else none

/-- Fuelled base-10 rendering used by `decChars`; mirrors the digit loop of
JavaScript's `Number.prototype.toString(10)` for naturals. -/
def decCharsCore : Nat → Nat → List Nat → List Nat
  | 0, _, acc => acc
  | fuel + 1, n, acc =>
    if n < 10 then (48 + n) :: acc
    else decCharsCore fuel (n / 10) ((48 + n % 10) :: acc)

/-- Character codes of the base-10 rendering of a natural number. -/
def decChars (n : Nat) : List Nat :=
  decCharsCore (n + 1) n []

/-- Recursive specification of the base-10 rendering, used in proofs. -/
def decSpec (n : Nat) : List Nat :=
  if n < 10 then [48 + n] else decSpec (n / 10) ++ [48 + n % 10]
  decreasing_by exact Nat.div_lt_self (by omega) (by omega)

/-- Model of the `padLeft(n, size)` helper: render in base 10, keep the first
`size` characters, left-pad with zeros to exactly `size` characters. -/
def padLeftJS (n size : Nat) : List Nat :=
  let s := (decChars n).take size
  List.replicate (size - s.length) 48 ++ s

/-- JavaScript string read `buffer.toString("ascii", a, b)`: the byte slice
`[a, b)` with every byte masked by 0x7F. -/
def bufStr (l : List Nat) (a b : Nat) : List Nat :=
  ((l.drop a).take (b - a)).map (fun c => c % 128)

/-- Raw byte slice `buffer.slice(a, b)` (no masking). -/
def bufSlice (l : List Nat) (a b : Nat) : List Nat :=
  (l.drop a).take (b - a)

theorem decCharsCore_eq (fuel : Nat) :
    ∀ n acc, n < fuel → decCharsCore fuel n acc = decSpec n ++ acc := by
  induction fuel with
  | zero => intro n acc h; omega
  | succ f ih =>
    intro n acc h
    by_cases hn : n < 10
    · rw [decCharsCore, if_pos hn, decSpec, if_pos hn]
      rfl
    · rw [decCharsCore, if_neg hn, ih (n / 10) _ (by omega)]
      conv_rhs => rw [decSpec, if_neg hn]
      simp

theorem decChars_eq (n : Nat) : decChars n = decSpec n := by
  rw [decChars, decCharsCore_eq (n + 1) n [] (by omega), List.append_nil]

theorem decSpec_digits (n : Nat) : ∀ c ∈ decSpec n, 48 ≤ c ∧ c ≤ 57 := by
  induction n using Nat.strong_induction_on with
  | _ n ih =>
    intro c hc
    by_cases hn : n < 10
    · rw [decSpec, if_pos hn] at hc
      simp at hc
      omega
    · rw [decSpec, if_neg hn] at hc
      rcases List.mem_append.mp hc with h | h
      · exact ih (n / 10) (Nat.div_lt_self (by omega) (by omega)) c h
      · simp at h
        have := Nat.mod_lt n (show 0 < 10 by omega)
        omega

theorem decSpec_ne_nil (n : Nat) : decSpec n ≠ [] := by
  by_cases hn : n < 10
  · rw [decSpec, if_pos hn]; simp
  · rw [decSpec, if_neg hn]; simp

theorem digitsVal_decSpec (n : Nat) : digitsVal (decSpec n) = n := by
  induction n using Nat.strong_induction_on with
  | _ n ih =>
    by_cases hn : n < 10
    · rw [decSpec, if_pos hn]
      simp [digitsVal]
    · rw [decSpec, if_neg hn]
      have h1 := ih (n / 10) (Nat.div_lt_self (by omega) (by omega))
      simp only [digitsVal, List.foldl_append, List.foldl_cons, List.foldl_nil] at h1 ⊢
      rw [h1]
      omega

theorem decSpec_length_le (k : Nat) :
    ∀ n, n < 10 ^ k → 1 ≤ k → (decSpec n).length ≤ k := by
  induction k with
  | zero => intro n _ h; omega
  | succ k ih =>
    intro n hn _
    by_cases h10 : n < 10
    · rw [decSpec, if_pos h10]; simp
    · rw [decSpec, if_neg h10]
      have hk : 1 ≤ k := by
        rcases Nat.eq_zero_or_pos k with h0 | h1
        · subst h0; rw [pow_one] at hn; omega
        · exact h1
      have : n / 10 < 10 ^ k := by
        rw [Nat.div_lt_iff_lt_mul (by omega)]
        calc n < 10 ^ (k + 1) := hn
        _ = 10 ^ k * 10 := by ring
      have := ih (n / 10) this hk
      simp [List.length_append]
      omega

theorem digitsVal_replicate_zero (j : Nat) (l : List Nat) :
    digitsVal (List.replicate j 48 ++ l) = digitsVal l := by
  induction j with
  | zero => simp
  | succ j ih =>
    simp only [List.replicate_succ, List.cons_append, digitsVal, List.foldl_cons]
    simpa [digitsVal] using ih

theorem padLeftJS_length (n size : Nat) : (padLeftJS n size).length = size := by
  simp only [padLeftJS, List.length_append, List.length_replicate]
  have : ((decChars n).take size).length ≤ size := by
    simp [List.length_take]
  omega

theorem padLeftJS_eq (n k : Nat) (h : n < 10 ^ k) (hk : 1 ≤ k) :
    padLeftJS n k = List.replicate (k - (decSpec n).length) 48 ++ decSpec n := by
  have hlen := decSpec_length_le k n h hk
  simp only [padLeftJS, decChars_eq]
  rw [List.take_of_length_le hlen]

theorem padLeftJS_digits (n k : Nat) (h : n < 10 ^ k) (hk : 1 ≤ k) :
    ∀ c ∈ padLeftJS n k, 48 ≤ c ∧ c ≤ 57 := by
  rw [padLeftJS_eq n k h hk]
  intro c hc
  rcases List.mem_append.mp hc with hh | hh
  · have := List.eq_of_mem_replicate hh
    omega
  · exact decSpec_digits n c hh

theorem jsTrim_of_digits (l : List Nat) (h : ∀ c ∈ l, 48 ≤ c ∧ c ≤ 57) :
    jsTrim l = l := by
  have hd : ∀ (m : List Nat), (∀ c ∈ m, 48 ≤ c ∧ c ≤ 57) → m.dropWhile isWsB = m := by
    intro m hm
    cases m with
    | nil => rfl
    | cons a t =>
      rw [List.dropWhile_cons]
      have := hm a (by simp)
      have : isWsB a = false := by
        simp [isWsB]
        omega
      simp [this]
  rw [jsTrim, hd l h, hd l.reverse (by intro c hc; exact h c (List.mem_reverse.mp hc)),
    List.reverse_reverse]

theorem jsNum_of_digits (l : List Nat) (hne : l ≠ [])
    (h : ∀ c ∈ l, 48 ≤ c ∧ c ≤ 57) : jsNum l = some (digitsVal l) := by
  rw [jsNum]
  simp only [jsTrim_of_digits l h]
  rw [if_neg (by simpa using hne), if_pos]
  exact List.all_eq_true.mpr fun c hc => by
    have := h c hc
    simp [isDigitB]
    omega

theorem jsNum_padLeftJS (n k : Nat) (h : n < 10 ^ k) (hk : 1 ≤ k) :
    jsNum (padLeftJS n k) = some n := by
  have hd := padLeftJS_digits n k h hk
  have hne : padLeftJS n k ≠ [] := by
    have := padLeftJS_length n k
    intro hcon
    rw [hcon] at this
    simp at this
    omega
  rw [jsNum_of_digits _ hne hd, padLeftJS_eq n k h hk, digitsVal_replicate_zero,
    digitsVal_decSpec]

theorem padLeftJS_map_mask (n k : Nat) (h : n < 10 ^ k) (hk : 1 ≤ k) :
    (padLeftJS n k).map (fun c => c % 128) = padLeftJS n k := by
  have hd := padLeftJS_digits n k h hk
  rw [List.map_congr_left (fun c hc => Nat.mod_eq_of_lt (by have := hd c hc; omega))]
  simp

/-!
Data model: the in-memory Message record produced by OpenProtocolParser and
consumed by OpenProtocolSerializer (header fields plus raw byte payload).
The optional `_raw` attachment (rawData mode) is outside the claims and the
parser is modelled with rawData disabled, its default.
-/

/-- The Message record of the header codecs: `mid`, `revision`, `noAck`,
`stationID`, `spindleID`, `sequenceNumber`, `messageParts`, `messageNumber`
and the raw byte `payload`. -/
structure OPMessage where
  mid : Nat
  revision : Nat
  noAck : Bool
  stationID : Nat
  spindleID : Nat
  sequenceNumber : Nat
  messageParts : Nat
  messageNumber : Nat
  payload : List Nat
deriving DecidableEq, Repr

/-- Error kinds surfaced by OpenProtocolParser's `_transform` (the trailing-0
failure reuses the INVALID_LENGTH errno in the source but is the spec's
InvalidTerminator, so it gets its own constructor here). -/
inductive ParseError where
  | invalidLength
  | invalidMid
  | invalidRevision
  | invalidNoAck
  | invalidStationId
  | invalidSpindleId
  | invalidSequenceNumber
  | invalidMessageParts
  | invalidMessageNumber
  | invalidTerminator
deriving DecidableEq, Repr

/-- Header-field decoding of src/src/openProtocolParser.js steps 2-9, reading
at offsets relative to the start of the current message (`rest`): mid at 4..8,
revision 8..11, noAck 11..12, stationID 12..14, spindleID 14..16,
sequenceNumber 16..18, messageParts 18..19, messageNumber 19..20.  Blank
fields are substituted exactly as in the source (revision `"   "` becomes
`"1"`, stationID/spindleID `"  "` become `"1"`, the remaining blanks become
`"0"`), each value is range-checked, and revision 0 / stationID 0 /
spindleID 0 are remapped to 1 after the check. -/
def readHeader (rest : List Nat) : Except ParseError OPMessage :=
  match jsNum (bufStr rest 4 8) with
  | none => .error .invalidMid
  | some mid =>
    if mid < 1 ∨ 9999 < mid then .error .invalidMid
    else
      let revStr := bufStr rest 8 11
      let revStr := if revStr = [32, 32, 32] then [49] else revStr
      match jsNum revStr with
      | none => .error .invalidRevision
      | some rev =>
        if 999 < rev then .error .invalidRevision
        else
          let rev := if rev = 0 then 1 else rev
          let naStr := bufStr rest 11 12
          let naStr := if naStr = [32] then [48] else naStr
          match jsNum naStr with
          | none => .error .invalidNoAck
          | some na =>
            if 1 < na then .error .invalidNoAck
            else
              let stStr := bufStr rest 12 14
              let stStr := if stStr = [32, 32] then [49] else stStr
              match jsNum stStr with
              | none => .error .invalidStationId
              | some st =>
                if 99 < st then .error .invalidStationId
                else
                  let st := if st = 0 then 1 else st
                  let spStr := bufStr rest 14 16
                  let spStr := if spStr = [32, 32] then [49] else spStr
                  match jsNum spStr with
                  | none => .error .invalidSpindleId
                  | some sp =>
                    if 99 < sp then .error .invalidSpindleId
                    else
                      let sp := if sp = 0 then 1 else sp
                      let sqStr := bufStr rest 16 18
                      let sqStr := if sqStr = [32, 32] then [48] else sqStr
                      match jsNum sqStr with
                      | none => .error .invalidSequenceNumber
                      | some sq =>
                        if 99 < sq then .error .invalidSequenceNumber
                        else
                          let mpStr := bufStr rest 18 19
                          let mpStr := if mpStr = [32] then [48] else mpStr
                          match jsNum mpStr with
                          | none => .error .invalidMessageParts
                          | some mp =>
                            if 9 < mp then .error .invalidMessageParts
                            else
                              let mnStr := bufStr rest 19 20
                              let mnStr := if mnStr = [32] then [48] else mnStr
                              match jsNum mnStr with
                              | none => .error .invalidMessageNumber
                              | some mn =>
                                if 9 < mn then .error .invalidMessageNumber
                                else
                                  .ok { mid := mid, revision := rev,
                                        noAck := na != 0, stationID := st,
                                        spindleID := sp, sequenceNumber := sq,
                                        messageParts := mp, messageNumber := mn,
                                        payload := [] }

/-- The `while (ptr < chunk.length)` loop of src/src/openProtocolParser.js's
`_transform`.  The advancing pointer is represented by dropping the consumed
prefix, so `rest` is `chunk.slice(ptr)`; every test and read of the loop body
factors exactly through that suffix.  Result: messages pushed, the stashed
`_nBuffer` (if the loop returned early to await more data) and the error
passed to `cb` (if any).  The loop consumes at least one byte per iteration
(lengthVal is at least 1), so `rest.length + 1` fuel always suffices; the
fuel-0 branch is unreachable from `opParserTransform`. -/
def loopP : Nat → List Nat → List OPMessage →
    List OPMessage × Option (List Nat) × Option ParseError
  | 0, rest, acc => (acc.reverse, some rest, none)
  | fuel + 1, rest, acc =>
    if rest.isEmpty then (acc.reverse, none, none)
    else
      match jsNum (bufStr rest 0 4) with
      | none => (acc.reverse, none, some .invalidLength)
      | some lengthVal =>
        if lengthVal < 1 ∨ 9999 < lengthVal then
          (acc.reverse, none, some .invalidLength)
        else if rest.length < lengthVal + 1 then
          (acc.reverse, some rest, none)
        else
          match readHeader rest with
          | .error e => (acc.reverse, none, some e)
          | .ok hdr =>
            let payload := bufSlice rest 20 lengthVal
            let msg := { hdr with payload := payload }
            if hdr.mid ≠ 900 then
              match rest[lengthVal]? with
              | some 0 => loopP fuel (rest.drop (lengthVal + 1)) (msg :: acc)
              | _ => (acc.reverse, none, some .invalidTerminator)
            else
              loopP fuel (rest.drop lengthVal) (msg :: acc)

/-- One `_transform` call of src/src/openProtocolParser.js: prepend the carry
buffer, stash everything if fewer than 20 bytes are available, otherwise run
the message loop.  Returns the pushed messages, the new `_nBuffer` and the
error handed to `cb`, mirroring the source's three exits. -/
def opParserTransform (nBuffer : Option (List Nat)) (input : List Nat) :
    List OPMessage × Option (List Nat) × Option ParseError :=
  let chunk := (nBuffer.getD []) ++ input
  if chunk.length < 20 then ([], some chunk, none)
  else loopP (chunk.length + 1) chunk []

/-- Feeding a sequence of chunks through one OpenProtocolParser instance,
threading `_nBuffer` between `_transform` calls; after an error the stream is
destroyed, so remaining chunks are not processed. -/
def runChunks (chunks : List (List Nat)) : List OPMessage × Option ParseError :=
  go none chunks []
where
  go (st : Option (List Nat)) (cs : List (List Nat)) (acc : List OPMessage) :
      List OPMessage × Option ParseError :=
    match cs with
    | [] => (acc, none)
    | c :: cs =>
      match opParserTransform st c with
      | (msgs, st', none) => go st' cs (acc ++ msgs)
      | (msgs, _, some e) => (acc ++ msgs, some e)

/-!
Header Serializer (OpenProtocolSerializer in src/unnamed/part_000).  Its
`_transform` validates every header field, then dispatches on the normalized
vendor string; Bosch and AtlasCopco share the standard 20-byte layout, the
Desoutter variant blanks positions 8..19.  The model takes a message whose
header fields are already numbers; the source's substitutions for `undefined`
or all-blank string inputs (revision/stationID/spindleID default 1,
sequenceNumber/messageParts/messageNumber default 0) are inert on that domain
apart from `revision === 0`, which is kept.  The payload is already a byte
buffer, so the payload-type check cannot fire; `payload.toString("ascii")`
followed by the ascii write masks every byte with 0x7F. -/

/-- Error kinds produced by OpenProtocolSerializer's validation and vendor
dispatch. -/
inductive SerError where
  | invalidMid
  | invalidRevision
  | invalidStationId
  | invalidSpindleId
  | invalidSequenceNumber
  | invalidMessageParts
  | invalidMessageNumber
  | unsupportedVendor
deriving DecidableEq, Repr

/-- Outcome of one OpenProtocolSerializer `_transform` call: a frame pushed
downstream, an error passed to `cb`, or an uncaught TypeError (reading `trim`
of `undefined` when no vendor was configured). -/
inductive SerOutcome where
  | pushed (frame : List Nat)
  | errored (e : SerError)
  | thrownTypeError
deriving DecidableEq, Repr

/-- Lower-casing of an ASCII character code, the fragment of JavaScript
`toLowerCase` reachable from a byte-masked string. -/
def asciiLower (c : Nat) : Nat :=
  if 65 ≤ c ∧ c ≤ 90 then c + 32 else c

/-- Model of `this.vendor.trim().toLowerCase()`. -/
def normalizeVendor (v : List Nat) : List Nat :=
  (jsTrim v).map asciiLower

/-- Character codes of "bosch". -/
def vendorBosch : List Nat := [98, 111, 115, 99, 104]

/-- Character codes of "atlascopco". -/
def vendorAtlasCopco : List Nat := [97, 116, 108, 97, 115, 99, 111, 112, 99, 111]

/-- Character codes of "desoutter". -/
def vendorDesoutter : List Nat := [100, 101, 115, 111, 117, 116, 116, 101, 114]

/-- The 20-byte header written by `_serializeForBosch` and
`_serializeForAtlasCopco`: length field `20 + |payload|`, then mid, revision,
noAck, stationID, spindleID, sequenceNumber, messageParts, messageNumber,
all zero-padded to their widths. -/
def frameHeader (m : OPMessage) : List Nat :=
  padLeftJS (20 + m.payload.length) 4 ++
    (padLeftJS m.mid 4 ++
      (padLeftJS m.revision 3 ++
        ([if m.noAck then 49 else 48] ++
          (padLeftJS m.stationID 2 ++
            (padLeftJS m.spindleID 2 ++
              (padLeftJS m.sequenceNumber 2 ++
                (padLeftJS m.messageParts 1 ++
                  padLeftJS m.messageNumber 1)))))))

/-- A full standard frame: header, raw payload bytes, single NUL terminator
(the last byte of the `Buffer.alloc(sizeMessage)` zero fill; the out-of-range
`buf.write("\u0000", sizeMessage)` in the source writes nothing). -/
def frameOf (m : OPMessage) : List Nat :=
  frameHeader m ++ (m.payload ++ [0])

/-- A frame with the trailing NUL omitted, as some MID 900/901 devices send. -/
def frameNoNul (m : OPMessage) : List Nat :=
  frameHeader m ++ m.payload

/-- Bytes pushed by `_serializeForBosch` / `_serializeForAtlasCopco`: the
payload goes through `toString("ascii")`, masking each byte with 0x7F. -/
def serializeFrameStd (m : OPMessage) : List Nat :=
  frameOf { m with payload := m.payload.map (fun c => c % 128) }

/-- Bytes pushed by `_serializeForDesoutter`: positions 8..19 are overwritten
with twelve blanks ("Desoutter controllers did not like the version number"),
the remainder as in the standard layout. -/
def serializeFrameDesoutter (m : OPMessage) : List Nat :=
  padLeftJS (20 + m.payload.length) 4 ++
    (padLeftJS m.mid 4 ++
      (List.replicate 12 32 ++
        (m.payload.map (fun c => c % 128) ++ [0])))

/-- OpenProtocolSerializer `_transform`: field validation in source order,
then the vendor dispatch of part_000 lines 136-153.  With no vendor option
the dispatch line itself throws (`this.vendor.trim()` on `undefined`), which
therefore happens only after all field checks pass. -/
def serTransform (vendor : Option (List Nat)) (m : OPMessage) : SerOutcome :=
  if m.mid < 1 ∨ 9999 < m.mid then .errored .invalidMid
  else
    let rev := if m.revision = 0 then 1 else m.revision
    if 999 < rev then .errored .invalidRevision
    else if 99 < m.stationID then .errored .invalidStationId
    else if 99 < m.spindleID then .errored .invalidSpindleId
    else if 99 < m.sequenceNumber then .errored .invalidSequenceNumber
    else if 9 < m.messageParts then .errored .invalidMessageParts
    else if 9 < m.messageNumber then .errored .invalidMessageNumber
    else
      match vendor with
      | none => .thrownTypeError
      | some v =>
        let nv := normalizeVendor v
        if nv = vendorBosch then .pushed (serializeFrameStd { m with revision := rev })
        else if nv = vendorAtlasCopco then
          .pushed (serializeFrameStd { m with revision := rev })
        else if nv = vendorDesoutter then
          .pushed (serializeFrameDesoutter { m with revision := rev })
        else .errored .unsupportedVendor

/-!
Evaluation lemmas: reading the fixed-width fields back out of a serialized
frame.  The parser's reads all have the form `bufStr chunk a (a + w)`; on a
frame built from appended segments the read returns exactly the segment that
starts at offset `a` and has width `w`.
-/

theorem bufStr_at (C seg V : List Nat) (a w : Nat)
    (hdrop : C.drop a = seg ++ V) (hw : seg.length = w) :
    bufStr C a (a + w) = seg.map (fun c => c % 128) := by
  rw [bufStr, hdrop, show a + w - a = w by omega, List.take_left' hw]

theorem drop_through (x y : List Nat) (a k : Nat) (h : x.length = k) :
    (x ++ y).drop (k + a) = y.drop a := by
  subst h
  exact List.drop_append a

theorem drop_exact (x y : List Nat) (k : Nat) (h : x.length = k) :
    (x ++ y).drop k = y :=
  List.drop_left' h

theorem padLeftJS_ne_blank (n k : Nat) (h : n < 10 ^ k) (hk : 1 ≤ k)
    (bl : List Nat) (hmem : 32 ∈ bl) : padLeftJS n k ≠ bl := by
  intro hcon
  have := padLeftJS_digits n k h hk 32 (hcon ▸ hmem)
  omega

theorem frameHeader_length (m : OPMessage) : (frameHeader m).length = 20 := by
  simp [frameHeader, padLeftJS_length]

/-- Header fields within the ranges the codecs accept, with
stationID/spindleID at least 1 (the parser remaps 0 to 1) and the wire length
`20 + |payload|` within its 4-digit field. -/
def InRangeHeader (m : OPMessage) : Prop :=
  1 ≤ m.mid ∧ m.mid ≤ 9999 ∧ 1 ≤ m.revision ∧ m.revision ≤ 999 ∧
    1 ≤ m.stationID ∧ m.stationID ≤ 99 ∧ 1 ≤ m.spindleID ∧ m.spindleID ≤ 99 ∧
    m.sequenceNumber ≤ 99 ∧ m.messageParts ≤ 9 ∧ m.messageNumber ≤ 9 ∧
    20 + m.payload.length ≤ 9999

theorem readHeader_frame (m : OPMessage) (tail : List Nat)
    (hm : InRangeHeader m) :
    readHeader (frameHeader m ++ tail) = .ok { m with payload := [] } := by
  obtain ⟨hmid1, hmid2, hrev1, hrev2, hst1, hst2, hsp1, hsp2, hsq, hmp, hmn, hpay⟩ := hm
  have e4 : (10 : Nat) ^ 4 = 10000 := by norm_num
  have e3 : (10 : Nat) ^ 3 = 1000 := by norm_num
  have e2 : (10 : Nat) ^ 2 = 100 := by norm_num
  have e1 : (10 : Nat) ^ 1 = 10 := by norm_num
  have hCeq : frameHeader m ++ tail =
      padLeftJS (20 + m.payload.length) 4 ++
        (padLeftJS m.mid 4 ++
          (padLeftJS m.revision 3 ++
            ([if m.noAck then 49 else 48] ++
              (padLeftJS m.stationID 2 ++
                (padLeftJS m.spindleID 2 ++
                  (padLeftJS m.sequenceNumber 2 ++
                    (padLeftJS m.messageParts 1 ++
                      (padLeftJS m.messageNumber 1 ++ tail)))))))) := by
    simp only [frameHeader, List.append_assoc]
  obtain ⟨T1, hT1⟩ : ∃ T, (frameHeader m ++ tail).drop 4 = padLeftJS m.mid 4 ++ T :=
    ⟨_, by rw [hCeq]; exact drop_exact _ _ 4 (padLeftJS_length _ 4)⟩
  obtain ⟨T2, hT2⟩ : ∃ T, (frameHeader m ++ tail).drop 8 =
      padLeftJS m.revision 3 ++ T :=
    ⟨_, by
      rw [hCeq, show (8 : Nat) = 4 + 4 from rfl,
        drop_through _ _ 4 4 (padLeftJS_length _ 4)]
      exact drop_exact _ _ 4 (padLeftJS_length _ 4)⟩
  obtain ⟨T3, hT3⟩ : ∃ T, (frameHeader m ++ tail).drop 11 =
      [if m.noAck then 49 else 48] ++ T :=
    ⟨_, by
      rw [hCeq, show (11 : Nat) = 4 + 7 from rfl,
        drop_through _ _ 7 4 (padLeftJS_length _ 4),
        show (7 : Nat) = 4 + 3 from rfl,
        drop_through _ _ 3 4 (padLeftJS_length _ 4)]
      exact drop_exact _ _ 3 (padLeftJS_length _ 3)⟩
  obtain ⟨T4, hT4⟩ : ∃ T, (frameHeader m ++ tail).drop 12 =
      padLeftJS m.stationID 2 ++ T :=
    ⟨_, by
      rw [hCeq, show (12 : Nat) = 4 + 8 from rfl,
        drop_through _ _ 8 4 (padLeftJS_length _ 4),
        show (8 : Nat) = 4 + 4 from rfl,
        drop_through _ _ 4 4 (padLeftJS_length _ 4),
        show (4 : Nat) = 3 + 1 from rfl,
        drop_through _ _ 1 3 (padLeftJS_length _ 3)]
      exact drop_exact _ _ 1 rfl⟩
  obtain ⟨T5, hT5⟩ : ∃ T, (frameHeader m ++ tail).drop 14 =
      padLeftJS m.spindleID 2 ++ T :=
    ⟨_, by
      rw [hCeq, show (14 : Nat) = 4 + 10 from rfl,
        drop_through _ _ 10 4 (padLeftJS_length _ 4),
        show (10 : Nat) = 4 + 6 from rfl,
        drop_through _ _ 6 4 (padLeftJS_length _ 4),
        show (6 : Nat) = 3 + 3 from rfl,
        drop_through _ _ 3 3 (padLeftJS_length _ 3),
        show (3 : Nat) = 1 + 2 from rfl,
        drop_through [if m.noAck then 49 else 48] _ 2 1 rfl]
      exact drop_exact _ _ 2 (padLeftJS_length _ 2)⟩
  obtain ⟨T6, hT6⟩ : ∃ T, (frameHeader m ++ tail).drop 16 =
      padLeftJS m.sequenceNumber 2 ++ T :=
    ⟨_, by
      rw [hCeq, show (16 : Nat) = 4 + 12 from rfl,
        drop_through _ _ 12 4 (padLeftJS_length _ 4),
        show (12 : Nat) = 4 + 8 from rfl,
        drop_through _ _ 8 4 (padLeftJS_length _ 4),
        show (8 : Nat) = 3 + 5 from rfl,
        drop_through _ _ 5 3 (padLeftJS_length _ 3),
        show (5 : Nat) = 1 + 4 from rfl,
        drop_through [if m.noAck then 49 else 48] _ 4 1 rfl,
        show (4 : Nat) = 2 + 2 from rfl,
        drop_through _ _ 2 2 (padLeftJS_length _ 2)]
      exact drop_exact _ _ 2 (padLeftJS_length _ 2)⟩
  obtain ⟨T7, hT7⟩ : ∃ T, (frameHeader m ++ tail).drop 18 =
      padLeftJS m.messageParts 1 ++ T :=
    ⟨_, by
      rw [hCeq, show (18 : Nat) = 4 + 14 from rfl,
        drop_through _ _ 14 4 (padLeftJS_length _ 4),
        show (14 : Nat) = 4 + 10 from rfl,
        drop_through _ _ 10 4 (padLeftJS_length _ 4),
        show (10 : Nat) = 3 + 7 from rfl,
        drop_through _ _ 7 3 (padLeftJS_length _ 3),
        show (7 : Nat) = 1 + 6 from rfl,
        drop_through [if m.noAck then 49 else 48] _ 6 1 rfl,
        show (6 : Nat) = 2 + 4 from rfl,
        drop_through _ _ 4 2 (padLeftJS_length _ 2),
        show (4 : Nat) = 2 + 2 from rfl,
        drop_through _ _ 2 2 (padLeftJS_length _ 2)]
      exact drop_exact _ _ 2 (padLeftJS_length _ 2)⟩
  obtain ⟨T8, hT8⟩ : ∃ T, (frameHeader m ++ tail).drop 19 =
      padLeftJS m.messageNumber 1 ++ T :=
    ⟨_, by
      rw [hCeq, show (19 : Nat) = 4 + 15 from rfl,
        drop_through _ _ 15 4 (padLeftJS_length _ 4),
        show (15 : Nat) = 4 + 11 from rfl,
        drop_through _ _ 11 4 (padLeftJS_length _ 4),
        show (11 : Nat) = 3 + 8 from rfl,
        drop_through _ _ 8 3 (padLeftJS_length _ 3),
        show (8 : Nat) = 1 + 7 from rfl,
        drop_through [if m.noAck then 49 else 48] _ 7 1 rfl,
        show (7 : Nat) = 2 + 5 from rfl,
        drop_through _ _ 5 2 (padLeftJS_length _ 2),
        show (5 : Nat) = 2 + 3 from rfl,
        drop_through _ _ 3 2 (padLeftJS_length _ 2),
        show (3 : Nat) = 2 + 1 from rfl,
        drop_through _ _ 1 2 (padLeftJS_length _ 2)]
      exact drop_exact _ _ 1 (padLeftJS_length _ 1)⟩
  have r1 : bufStr (frameHeader m ++ tail) 4 8 = padLeftJS m.mid 4 := by
    rw [show (8 : Nat) = 4 + 4 from rfl,
      bufStr_at _ _ _ 4 4 hT1 (padLeftJS_length _ 4),
      padLeftJS_map_mask _ 4 (by rw [e4]; omega) (by norm_num)]
  have r2 : bufStr (frameHeader m ++ tail) 8 11 = padLeftJS m.revision 3 := by
    rw [show (11 : Nat) = 8 + 3 from rfl,
      bufStr_at _ _ _ 8 3 hT2 (padLeftJS_length _ 3),
      padLeftJS_map_mask _ 3 (by rw [e3]; omega) (by norm_num)]
  have r3 : bufStr (frameHeader m ++ tail) 11 12 = [if m.noAck then 49 else 48] := by
    rw [show (12 : Nat) = 11 + 1 from rfl, bufStr_at _ _ _ 11 1 hT3 rfl]
    cases m.noAck <;> simp
  have r4 : bufStr (frameHeader m ++ tail) 12 14 = padLeftJS m.stationID 2 := by
    rw [show (14 : Nat) = 12 + 2 from rfl,
      bufStr_at _ _ _ 12 2 hT4 (padLeftJS_length _ 2),
      padLeftJS_map_mask _ 2 (by rw [e2]; omega) (by norm_num)]
  have r5 : bufStr (frameHeader m ++ tail) 14 16 = padLeftJS m.spindleID 2 := by
    rw [show (16 : Nat) = 14 + 2 from rfl,
      bufStr_at _ _ _ 14 2 hT5 (padLeftJS_length _ 2),
      padLeftJS_map_mask _ 2 (by rw [e2]; omega) (by norm_num)]
  have r6 : bufStr (frameHeader m ++ tail) 16 18 = padLeftJS m.sequenceNumber 2 := by
    rw [show (18 : Nat) = 16 + 2 from rfl,
      bufStr_at _ _ _ 16 2 hT6 (padLeftJS_length _ 2),
      padLeftJS_map_mask _ 2 (by rw [e2]; omega) (by norm_num)]
  have r7 : bufStr (frameHeader m ++ tail) 18 19 = padLeftJS m.messageParts 1 := by
    rw [show (19 : Nat) = 18 + 1 from rfl,
      bufStr_at _ _ _ 18 1 hT7 (padLeftJS_length _ 1),
      padLeftJS_map_mask _ 1 (by rw [e1]; omega) (by norm_num)]
  have r8 : bufStr (frameHeader m ++ tail) 19 20 = padLeftJS m.messageNumber 1 := by
    rw [show (20 : Nat) = 19 + 1 from rfl,
      bufStr_at _ _ _ 19 1 hT8 (padLeftJS_length _ 1),
      padLeftJS_map_mask _ 1 (by rw [e1]; omega) (by norm_num)]
  have n1 : jsNum (padLeftJS m.mid 4) = some m.mid :=
    jsNum_padLeftJS _ 4 (by rw [e4]; omega) (by norm_num)
  have n2 : jsNum (padLeftJS m.revision 3) = some m.revision :=
    jsNum_padLeftJS _ 3 (by rw [e3]; omega) (by norm_num)
  have n4 : jsNum (padLeftJS m.stationID 2) = some m.stationID :=
    jsNum_padLeftJS _ 2 (by rw [e2]; omega) (by norm_num)
  have n5 : jsNum (padLeftJS m.spindleID 2) = some m.spindleID :=
    jsNum_padLeftJS _ 2 (by rw [e2]; omega) (by norm_num)
  have n6 : jsNum (padLeftJS m.sequenceNumber 2) = some m.sequenceNumber :=
    jsNum_padLeftJS _ 2 (by rw [e2]; omega) (by norm_num)
  have n7 : jsNum (padLeftJS m.messageParts 1) = some m.messageParts :=
    jsNum_padLeftJS _ 1 (by rw [e1]; omega) (by norm_num)
  have n8 : jsNum (padLeftJS m.messageNumber 1) = some m.messageNumber :=
    jsNum_padLeftJS _ 1 (by rw [e1]; omega) (by norm_num)
  have nb2 : (padLeftJS m.revision 3 = [32, 32, 32]) = False :=
    eq_false (padLeftJS_ne_blank _ 3 (by rw [e3]; omega) (by norm_num) _ (by simp))
  have nb3 : ([if m.noAck then 49 else 48] = [32]) = False :=
    eq_false (by cases m.noAck <;> simp)
  have nb4 : (padLeftJS m.stationID 2 = [32, 32]) = False :=
    eq_false (padLeftJS_ne_blank _ 2 (by rw [e2]; omega) (by norm_num) _ (by simp))
  have nb5 : (padLeftJS m.spindleID 2 = [32, 32]) = False :=
    eq_false (padLeftJS_ne_blank _ 2 (by rw [e2]; omega) (by norm_num) _ (by simp))
  have nb6 : (padLeftJS m.sequenceNumber 2 = [32, 32]) = False :=
    eq_false (padLeftJS_ne_blank _ 2 (by rw [e2]; omega) (by norm_num) _ (by simp))
  have nb7 : (padLeftJS m.messageParts 1 = [32]) = False :=
    eq_false (padLeftJS_ne_blank _ 1 (by rw [e1]; omega) (by norm_num) _ (by simp))
  have nb8 : (padLeftJS m.messageNumber 1 = [32]) = False :=
    eq_false (padLeftJS_ne_blank _ 1 (by rw [e1]; omega) (by norm_num) _ (by simp))
  have c1 : (m.mid < 1 ∨ 9999 < m.mid) = False := eq_false (by omega)
  have c2 : (999 < m.revision) = False := eq_false (by omega)
  have c2z : (m.revision = 0) = False := eq_false (by omega)
  have c4 : (99 < m.stationID) = False := eq_false (by omega)
  have c4z : (m.stationID = 0) = False := eq_false (by omega)
  have c5 : (99 < m.spindleID) = False := eq_false (by omega)
  have c5z : (m.spindleID = 0) = False := eq_false (by omega)
  have c6 : (99 < m.sequenceNumber) = False := eq_false (by omega)
  have c7 : (9 < m.messageParts) = False := eq_false (by omega)
  have c8 : (9 < m.messageNumber) = False := eq_false (by omega)
  obtain ⟨R, hR⟩ : ∃ R, frameHeader m ++ tail = R := ⟨_, rfl⟩
  rw [hR] at r1 r2 r3 r4 r5 r6 r7 r8 ⊢
  cases hna : m.noAck with
  | false =>
    rw [hna] at r3
    simp only [Bool.false_eq_true, if_false] at r3
    have j48 : jsNum [48] = some 0 := by decide
    have cna : ((1 : Nat) < 0) = False := eq_false (by omega)
    have nb3f : (([48] : List Nat) = [32]) = False := by simp
    have b0 : ((0 : Nat) != 0) = false := rfl
    simp only [readHeader, r1, n1, c1, r2, nb2, n2, c2, c2z, r3, nb3f, j48, cna,
      r4, nb4, n4, c4, c4z, r5, nb5, n5, c5, c5z, r6, nb6, n6, c6,
      r7, nb7, n7, c7, r8, nb8, n8, c8, b0, hna, ite_false, ite_true]
  | true =>
    rw [hna] at r3
    simp only [if_true] at r3
    have j49 : jsNum [49] = some 1 := by decide
    have cna : ((1 : Nat) < 1) = False := eq_false (by omega)
    have nb3t : (([49] : List Nat) = [32]) = False := by simp
    have b1 : ((1 : Nat) != 0) = true := rfl
    simp only [readHeader, r1, n1, c1, r2, nb2, n2, c2, c2z, r3, nb3t, j49, cna,
      r4, nb4, n4, c4, c4z, r5, nb5, n5, c5, c5z, r6, nb6, n6, c6,
      r7, nb7, n7, c7, r8, nb8, n8, c8, b1, hna, ite_false, ite_true]

theorem getElem_at (x y : List Nat) (k i : Nat) (hx : x.length = k) :
    (x ++ y)[k + i]? = y[i]? := by
  subst hx
  rw [List.getElem?_append_right (by omega)]
  congr 1
  omega

theorem loopP_nil (fuel : Nat) (acc : List OPMessage) :
    loopP (fuel + 1) [] acc = (acc.reverse, none, none) := by
  simp [loopP]


theorem isEmpty_false_of_length (l : List Nat) (h : l.length ≠ 0) :
    l.isEmpty = false := by
  cases l with
  | nil => simp at h
  | cons a t => rfl

/-- One iteration of the parse loop on a complete standard frame (any MID
other than 900): the message is pushed and the loop continues right after the
consumed NUL terminator. -/
theorem loopP_step (m : OPMessage) (rest : List Nat) (fuel : Nat)
    (acc : List OPMessage) (hm : InRangeHeader m) (h900 : m.mid ≠ 900) :
    loopP (fuel + 1) (frameOf m ++ rest) acc = loopP fuel rest (m :: acc) := by
  have e4 : (10 : Nat) ^ 4 = 10000 := by norm_num
  have hpay := hm.2.2.2.2.2.2.2.2.2.2.2
  have hsplit : frameOf m ++ rest =
      frameHeader m ++ (m.payload ++ ([0] ++ rest)) := by
    simp [frameOf, List.append_assoc]
  have hlen : (frameOf m ++ rest).length = 21 + m.payload.length + rest.length := by
    simp only [hsplit, List.length_append, frameHeader_length]
    simp
    omega
  have hne : (frameOf m ++ rest).isEmpty = false :=
    isEmpty_false_of_length _ (by omega)
  obtain ⟨TL, hTL⟩ : ∃ T, frameOf m ++ rest =
      padLeftJS (20 + m.payload.length) 4 ++ T :=
    ⟨_, by rw [hsplit]; simp only [frameHeader, List.append_assoc]; rfl⟩
  have r0 : bufStr (frameOf m ++ rest) 0 4 =
      padLeftJS (20 + m.payload.length) 4 := by
    rw [show (4 : Nat) = 0 + 4 from rfl,
      bufStr_at _ _ _ 0 4 (by rw [List.drop_zero]; exact hTL) (padLeftJS_length _ 4),
      padLeftJS_map_mask _ 4 (by rw [e4]; omega) (by norm_num)]
  have n0 : jsNum (padLeftJS (20 + m.payload.length) 4) =
      some (20 + m.payload.length) :=
    jsNum_padLeftJS _ 4 (by rw [e4]; omega) (by norm_num)
  have c0 : (20 + m.payload.length < 1 ∨ 9999 < 20 + m.payload.length) = False :=
    eq_false (by omega)
  have cav : ((frameOf m ++ rest).length < 20 + m.payload.length + 1) = False :=
    eq_false (by omega)
  have hrd : readHeader (frameOf m ++ rest) = .ok { m with payload := [] } := by
    rw [hsplit]
    exact readHeader_frame m _ hm
  have hdrop20 : (frameOf m ++ rest).drop 20 = m.payload ++ ([0] ++ rest) := by
    rw [hsplit]
    exact drop_exact _ _ 20 (frameHeader_length m)
  have hslice : bufSlice (frameOf m ++ rest) 20 (20 + m.payload.length) =
      m.payload := by
    rw [bufSlice, hdrop20, show 20 + m.payload.length - 20 = m.payload.length
      by omega, List.take_left' rfl]
  have hget : (frameOf m ++ rest)[20 + m.payload.length]? = some 0 := by
    rw [hsplit, getElem_at _ _ 20 m.payload.length (frameHeader_length m),
      ← Nat.add_zero m.payload.length, getElem_at _ _ m.payload.length 0 rfl]
    simp
  have hdropAll : (frameOf m ++ rest).drop (20 + m.payload.length + 1) = rest := by
    rw [hsplit, show 20 + m.payload.length + 1 = 20 + (m.payload.length + 1)
        from by omega,
      drop_through _ _ (m.payload.length + 1) 20 (frameHeader_length m),
      drop_through m.payload ([0] ++ rest) 1 m.payload.length rfl]
    rfl
  have hmsg : ({ { m with payload := [] } with payload := m.payload } : OPMessage)
      = m := rfl
  have c900 : (OPMessage.mid { m with payload := [] } ≠ 900) = True :=
    eq_true (by simpa using h900)
  obtain ⟨R, hR⟩ : ∃ R, frameOf m ++ rest = R := ⟨_, rfl⟩
  rw [hR] at hne r0 cav hrd hslice hget hdropAll ⊢
  simp only [loopP, hne, Bool.false_eq_true, if_false, r0, n0, c0, cav, hrd,
    ite_false, hslice, hget, c900, ite_true, hdropAll, hmsg, if_true]

/-- One iteration of the parse loop on a MID 900 frame without trailing NUL:
provided at least one more byte is available (the availability check demands
`lengthVal + 1` bytes for every MID), the message is pushed and the loop
continues immediately after the payload, consuming no terminator. -/
theorem loopP_step900 (m : OPMessage) (rest : List Nat) (fuel : Nat)
    (acc : List OPMessage) (hm : InRangeHeader m) (h900 : m.mid = 900)
    (hrest : rest ≠ []) :
    loopP (fuel + 1) (frameNoNul m ++ rest) acc = loopP fuel rest (m :: acc) := by
  have e4 : (10 : Nat) ^ 4 = 10000 := by norm_num
  have hpay := hm.2.2.2.2.2.2.2.2.2.2.2
  have hrestlen : rest.length ≠ 0 := by
    intro h
    exact hrest (List.eq_nil_of_length_eq_zero h)
  have hsplit : frameNoNul m ++ rest = frameHeader m ++ (m.payload ++ rest) := by
    simp [frameNoNul, List.append_assoc]
  have hlen : (frameNoNul m ++ rest).length =
      20 + m.payload.length + rest.length := by
    simp only [hsplit, List.length_append, frameHeader_length]
    omega
  have hne : (frameNoNul m ++ rest).isEmpty = false :=
    isEmpty_false_of_length _ (by omega)
  obtain ⟨TL, hTL⟩ : ∃ T, frameNoNul m ++ rest =
      padLeftJS (20 + m.payload.length) 4 ++ T :=
    ⟨_, by rw [hsplit]; simp only [frameHeader, List.append_assoc]; rfl⟩
  have r0 : bufStr (frameNoNul m ++ rest) 0 4 =
      padLeftJS (20 + m.payload.length) 4 := by
    rw [show (4 : Nat) = 0 + 4 from rfl,
      bufStr_at _ _ _ 0 4 (by rw [List.drop_zero]; exact hTL) (padLeftJS_length _ 4),
      padLeftJS_map_mask _ 4 (by rw [e4]; omega) (by norm_num)]
  have n0 : jsNum (padLeftJS (20 + m.payload.length) 4) =
      some (20 + m.payload.length) :=
    jsNum_padLeftJS _ 4 (by rw [e4]; omega) (by norm_num)
  have c0 : (20 + m.payload.length < 1 ∨ 9999 < 20 + m.payload.length) = False :=
    eq_false (by omega)
  have cav : ((frameNoNul m ++ rest).length < 20 + m.payload.length + 1) = False :=
    eq_false (by omega)
  have hrd : readHeader (frameNoNul m ++ rest) = .ok { m with payload := [] } := by
    rw [hsplit]
    exact readHeader_frame m _ hm
  have hdrop20 : (frameNoNul m ++ rest).drop 20 = m.payload ++ rest := by
    rw [hsplit]
    exact drop_exact _ _ 20 (frameHeader_length m)
  have hslice : bufSlice (frameNoNul m ++ rest) 20 (20 + m.payload.length) =
      m.payload := by
    rw [bufSlice, hdrop20, show 20 + m.payload.length - 20 = m.payload.length
      by omega, List.take_left' rfl]
  have hdropAll : (frameNoNul m ++ rest).drop (20 + m.payload.length) = rest := by
    rw [hsplit, drop_through _ _ m.payload.length 20 (frameHeader_length m),
      drop_exact m.payload rest m.payload.length rfl]
  have hmsg : ({ { m with payload := [] } with payload := m.payload } : OPMessage)
      = m := rfl
  have c900 : (OPMessage.mid { m with payload := [] } ≠ 900) = False :=
    eq_false (by simpa using h900)
  obtain ⟨R, hR⟩ : ∃ R, frameNoNul m ++ rest = R := ⟨_, rfl⟩
  rw [hR] at hne r0 cav hrd hslice hdropAll ⊢
  simp only [loopP, hne, Bool.false_eq_true, if_false, r0, n0, c0, cav, hrd,
    ite_false, hslice, c900, hdropAll, hmsg, if_true, ite_true]

/-- One iteration of the parse loop when a frame for a MID other than 900 is
followed by a non-NUL byte where the terminator should be: the parser fails
with the trailing-zero (InvalidTerminator) error and pushes nothing. -/
theorem loopP_termErr (m : OPMessage) (b : Nat) (rest : List Nat) (fuel : Nat)
    (acc : List OPMessage) (hm : InRangeHeader m) (h900 : m.mid ≠ 900)
    (hb : b ≠ 0) :
    loopP (fuel + 1) (frameNoNul m ++ (b :: rest)) acc =
      (acc.reverse, none, some .invalidTerminator) := by
  obtain ⟨n, rfl⟩ : ∃ n, b = n + 1 := ⟨b - 1, by omega⟩
  have e4 : (10 : Nat) ^ 4 = 10000 := by norm_num
  have hpay := hm.2.2.2.2.2.2.2.2.2.2.2
  have hsplit : frameNoNul m ++ ((n + 1) :: rest) =
      frameHeader m ++ (m.payload ++ ((n + 1) :: rest)) := by
    simp [frameNoNul, List.append_assoc]
  have hlen : (frameNoNul m ++ ((n + 1) :: rest)).length =
      21 + m.payload.length + rest.length := by
    simp only [hsplit, List.length_append, frameHeader_length]
    simp
    omega
  have hne : (frameNoNul m ++ ((n + 1) :: rest)).isEmpty = false :=
    isEmpty_false_of_length _ (by omega)
  obtain ⟨TL, hTL⟩ : ∃ T, frameNoNul m ++ ((n + 1) :: rest) =
      padLeftJS (20 + m.payload.length) 4 ++ T :=
    ⟨_, by rw [hsplit]; simp only [frameHeader, List.append_assoc]; rfl⟩
  have r0 : bufStr (frameNoNul m ++ ((n + 1) :: rest)) 0 4 =
      padLeftJS (20 + m.payload.length) 4 := by
    rw [show (4 : Nat) = 0 + 4 from rfl,
      bufStr_at _ _ _ 0 4 (by rw [List.drop_zero]; exact hTL) (padLeftJS_length _ 4),
      padLeftJS_map_mask _ 4 (by rw [e4]; omega) (by norm_num)]
  have n0 : jsNum (padLeftJS (20 + m.payload.length) 4) =
      some (20 + m.payload.length) :=
    jsNum_padLeftJS _ 4 (by rw [e4]; omega) (by norm_num)
  have c0 : (20 + m.payload.length < 1 ∨ 9999 < 20 + m.payload.length) = False :=
    eq_false (by omega)
  have cav : ((frameNoNul m ++ ((n + 1) :: rest)).length <
      20 + m.payload.length + 1) = False :=
    eq_false (by omega)
  have hrd : readHeader (frameNoNul m ++ ((n + 1) :: rest)) =
      .ok { m with payload := [] } := by
    rw [hsplit]
    exact readHeader_frame m _ hm
  have hget : (frameNoNul m ++ ((n + 1) :: rest))[20 + m.payload.length]? =
      some (n + 1) := by
    rw [hsplit, getElem_at _ _ 20 m.payload.length (frameHeader_length m),
      ← Nat.add_zero m.payload.length, getElem_at _ _ m.payload.length 0 rfl]
    simp
  have c900 : (OPMessage.mid { m with payload := [] } ≠ 900) = True :=
    eq_true (by simpa using h900)
  obtain ⟨R, hR⟩ : ∃ R, frameNoNul m ++ ((n + 1) :: rest) = R := ⟨_, rfl⟩
  rw [hR] at hne r0 cav hrd hget ⊢
  simp only [loopP, hne, Bool.false_eq_true, if_false, r0, n0, c0, cav, hrd,
    ite_false, hget, c900, if_true, ite_true]

/-- A framed message whose revision, noAck, stationID, spindleID,
sequenceNumber, messageParts and messageNumber fields are all ASCII blanks
(the 12 header bytes after the MID), with a trailing NUL. -/
def frameBlank (mid : Nat) (payload : List Nat) : List Nat :=
  padLeftJS (20 + payload.length) 4 ++
    (padLeftJS mid 4 ++
      ([32, 32, 32] ++
        ([32] ++
          ([32, 32] ++
            ([32, 32] ++
              ([32, 32] ++
                ([32] ++
                  ([32] ++ (payload ++ [0])))))))))

theorem readHeader_blank (mid : Nat) (pay tail : List Nat)
    (hmid1 : 1 ≤ mid) (hmid2 : mid ≤ 9999) (hpay : 20 + pay.length ≤ 9999) :
    readHeader (frameBlank mid pay ++ (tail : List Nat)) =
      .ok { mid := mid, revision := 1, noAck := false, stationID := 1,
            spindleID := 1, sequenceNumber := 0, messageParts := 0,
            messageNumber := 0, payload := [] } := by
  have e4 : (10 : Nat) ^ 4 = 10000 := by norm_num
  have hCeq : frameBlank mid pay ++ tail =
      padLeftJS (20 + pay.length) 4 ++
        (padLeftJS mid 4 ++
          ([32, 32, 32] ++
            ([32] ++
              ([32, 32] ++
                ([32, 32] ++
                  ([32, 32] ++
                    ([32] ++
                      ([32] ++ (pay ++ ([0] ++ tail)))))))))) := by
    simp only [frameBlank, List.append_assoc]
  obtain ⟨T1, hT1⟩ : ∃ T, (frameBlank mid pay ++ tail).drop 4 =
      padLeftJS mid 4 ++ T :=
    ⟨_, by rw [hCeq]; exact drop_exact _ _ 4 (padLeftJS_length _ 4)⟩
  obtain ⟨T2, hT2⟩ : ∃ T, (frameBlank mid pay ++ tail).drop 8 =
      [32, 32, 32] ++ T :=
    ⟨_, by
      rw [hCeq, show (8 : Nat) = 4 + 4 from rfl,
        drop_through _ _ 4 4 (padLeftJS_length _ 4)]
      exact drop_exact _ _ 4 (padLeftJS_length _ 4)⟩
  obtain ⟨T3, hT3⟩ : ∃ T, (frameBlank mid pay ++ tail).drop 11 = [32] ++ T :=
    ⟨_, by
      rw [hCeq, show (11 : Nat) = 4 + 7 from rfl,
        drop_through _ _ 7 4 (padLeftJS_length _ 4),
        show (7 : Nat) = 4 + 3 from rfl,
        drop_through _ _ 3 4 (padLeftJS_length _ 4)]
      exact drop_exact _ _ 3 rfl⟩
  obtain ⟨T4, hT4⟩ : ∃ T, (frameBlank mid pay ++ tail).drop 12 = [32, 32] ++ T :=
    ⟨_, by
      rw [hCeq, show (12 : Nat) = 4 + 8 from rfl,
        drop_through _ _ 8 4 (padLeftJS_length _ 4),
        show (8 : Nat) = 4 + 4 from rfl,
        drop_through _ _ 4 4 (padLeftJS_length _ 4),
        show (4 : Nat) = 3 + 1 from rfl,
        drop_through [32, 32, 32] _ 1 3 rfl]
      exact drop_exact _ _ 1 rfl⟩
  obtain ⟨T5, hT5⟩ : ∃ T, (frameBlank mid pay ++ tail).drop 14 = [32, 32] ++ T :=
    ⟨_, by
      rw [hCeq, show (14 : Nat) = 4 + 10 from rfl,
        drop_through _ _ 10 4 (padLeftJS_length _ 4),
        show (10 : Nat) = 4 + 6 from rfl,
        drop_through _ _ 6 4 (padLeftJS_length _ 4),
        show (6 : Nat) = 3 + 3 from rfl,
        drop_through [32, 32, 32] _ 3 3 rfl,
        show (3 : Nat) = 1 + 2 from rfl,
        drop_through [32] _ 2 1 rfl]
      exact drop_exact _ _ 2 rfl⟩
  obtain ⟨T6, hT6⟩ : ∃ T, (frameBlank mid pay ++ tail).drop 16 = [32, 32] ++ T :=
    ⟨_, by
      rw [hCeq, show (16 : Nat) = 4 + 12 from rfl,
        drop_through _ _ 12 4 (padLeftJS_length _ 4),
        show (12 : Nat) = 4 + 8 from rfl,
        drop_through _ _ 8 4 (padLeftJS_length _ 4),
        show (8 : Nat) = 3 + 5 from rfl,
        drop_through [32, 32, 32] _ 5 3 rfl,
        show (5 : Nat) = 1 + 4 from rfl,
        drop_through [32] _ 4 1 rfl,
        show (4 : Nat) = 2 + 2 from rfl,
        drop_through [32, 32] _ 2 2 rfl]
      exact drop_exact _ _ 2 rfl⟩
  obtain ⟨T7, hT7⟩ : ∃ T, (frameBlank mid pay ++ tail).drop 18 = [32] ++ T :=
    ⟨_, by
      rw [hCeq, show (18 : Nat) = 4 + 14 from rfl,
        drop_through _ _ 14 4 (padLeftJS_length _ 4),
        show (14 : Nat) = 4 + 10 from rfl,
        drop_through _ _ 10 4 (padLeftJS_length _ 4),
        show (10 : Nat) = 3 + 7 from rfl,
        drop_through [32, 32, 32] _ 7 3 rfl,
        show (7 : Nat) = 1 + 6 from rfl,
        drop_through [32] _ 6 1 rfl,
        show (6 : Nat) = 2 + 4 from rfl,
        drop_through [32, 32] _ 4 2 rfl,
        show (4 : Nat) = 2 + 2 from rfl,
        drop_through [32, 32] _ 2 2 rfl]
      exact drop_exact _ _ 2 rfl⟩
  obtain ⟨T8, hT8⟩ : ∃ T, (frameBlank mid pay ++ tail).drop 19 = [32] ++ T :=
    ⟨_, by
      rw [hCeq, show (19 : Nat) = 4 + 15 from rfl,
        drop_through _ _ 15 4 (padLeftJS_length _ 4),
        show (15 : Nat) = 4 + 11 from rfl,
        drop_through _ _ 11 4 (padLeftJS_length _ 4),
        show (11 : Nat) = 3 + 8 from rfl,
        drop_through [32, 32, 32] _ 8 3 rfl,
        show (8 : Nat) = 1 + 7 from rfl,
        drop_through [32] _ 7 1 rfl,
        show (7 : Nat) = 2 + 5 from rfl,
        drop_through [32, 32] _ 5 2 rfl,
        show (5 : Nat) = 2 + 3 from rfl,
        drop_through [32, 32] _ 3 2 rfl,
        show (3 : Nat) = 2 + 1 from rfl,
        drop_through [32, 32] _ 1 2 rfl]
      exact drop_exact _ _ 1 rfl⟩
  have r1 : bufStr (frameBlank mid pay ++ tail) 4 8 = padLeftJS mid 4 := by
    rw [show (8 : Nat) = 4 + 4 from rfl,
      bufStr_at _ _ _ 4 4 hT1 (padLeftJS_length _ 4),
      padLeftJS_map_mask _ 4 (by rw [e4]; omega) (by norm_num)]
  have r2 : bufStr (frameBlank mid pay ++ tail) 8 11 = [32, 32, 32] := by
    rw [show (11 : Nat) = 8 + 3 from rfl, bufStr_at _ _ _ 8 3 hT2 rfl]
    decide
  have r3 : bufStr (frameBlank mid pay ++ tail) 11 12 = [32] := by
    rw [show (12 : Nat) = 11 + 1 from rfl, bufStr_at _ _ _ 11 1 hT3 rfl]
    decide
  have r4 : bufStr (frameBlank mid pay ++ tail) 12 14 = [32, 32] := by
    rw [show (14 : Nat) = 12 + 2 from rfl, bufStr_at _ _ _ 12 2 hT4 rfl]
    decide
  have r5 : bufStr (frameBlank mid pay ++ tail) 14 16 = [32, 32] := by
    rw [show (16 : Nat) = 14 + 2 from rfl, bufStr_at _ _ _ 14 2 hT5 rfl]
    decide
  have r6 : bufStr (frameBlank mid pay ++ tail) 16 18 = [32, 32] := by
    rw [show (18 : Nat) = 16 + 2 from rfl, bufStr_at _ _ _ 16 2 hT6 rfl]
    decide
  have r7 : bufStr (frameBlank mid pay ++ tail) 18 19 = [32] := by
    rw [show (19 : Nat) = 18 + 1 from rfl, bufStr_at _ _ _ 18 1 hT7 rfl]
    decide
  have r8 : bufStr (frameBlank mid pay ++ tail) 19 20 = [32] := by
    rw [show (20 : Nat) = 19 + 1 from rfl, bufStr_at _ _ _ 19 1 hT8 rfl]
    decide
  have n1 : jsNum (padLeftJS mid 4) = some mid :=
    jsNum_padLeftJS _ 4 (by rw [e4]; omega) (by norm_num)
  have c1 : (mid < 1 ∨ 9999 < mid) = False := eq_false (by omega)
  have j49 : jsNum [49] = some 1 := by decide
  have j48 : jsNum [48] = some 0 := by decide
  obtain ⟨R, hR⟩ : ∃ R, frameBlank mid pay ++ tail = R := ⟨_, rfl⟩
  rw [hR] at r1 r2 r3 r4 r5 r6 r7 r8 ⊢
  simp only [readHeader, r1, n1, c1, r2, r3, r4, r5, r6, r7, r8, j49, j48,
    ite_false, ite_true]
  simp

/-- One iteration of the parse loop on an all-blank-fields frame (MID other
than 900): the defaults decoded are revision 1, noAck false, stationID 1,
spindleID 1, sequenceNumber 0, messageParts 0 and messageNumber 0. -/
theorem loopP_stepBlank (mid : Nat) (pay rest : List Nat) (fuel : Nat)
    (acc : List OPMessage) (hmid1 : 1 ≤ mid) (hmid2 : mid ≤ 9999)
    (hpay : 20 + pay.length ≤ 9999) (h900 : mid ≠ 900) :
    loopP (fuel + 1) (frameBlank mid pay ++ rest) acc =
      loopP fuel rest
        ({ mid := mid, revision := 1, noAck := false, stationID := 1,
           spindleID := 1, sequenceNumber := 0, messageParts := 0,
           messageNumber := 0, payload := pay } :: acc) := by
  have e4 : (10 : Nat) ^ 4 = 10000 := by norm_num
  have hbh : (padLeftJS (20 + pay.length) 4 ++
      (padLeftJS mid 4 ++
        ([32, 32, 32] ++
          ([32] ++
            ([32, 32] ++
              ([32, 32] ++
                ([32, 32] ++ ([32] ++ ([32] : List Nat))))))))).length = 20 := by
    simp [List.length_append, padLeftJS_length]
  have hsplit : frameBlank mid pay ++ rest =
      (padLeftJS (20 + pay.length) 4 ++
        (padLeftJS mid 4 ++
          ([32, 32, 32] ++
            ([32] ++
              ([32, 32] ++
                ([32, 32] ++
                  ([32, 32] ++ ([32] ++ ([32] : List Nat))))))))) ++
        (pay ++ ([0] ++ rest)) := by
    simp [frameBlank, List.append_assoc]
  have hlen : (frameBlank mid pay ++ rest).length =
      21 + pay.length + rest.length := by
    rw [hsplit]
    simp only [List.length_append, hbh]
    simp
    omega
  have hne : (frameBlank mid pay ++ rest).isEmpty = false :=
    isEmpty_false_of_length _ (by omega)
  obtain ⟨TL, hTL⟩ : ∃ T, frameBlank mid pay ++ rest =
      padLeftJS (20 + pay.length) 4 ++ T :=
    ⟨_, by simp only [frameBlank, List.append_assoc]; rfl⟩
  have r0 : bufStr (frameBlank mid pay ++ rest) 0 4 =
      padLeftJS (20 + pay.length) 4 := by
    rw [show (4 : Nat) = 0 + 4 from rfl,
      bufStr_at _ _ _ 0 4 (by rw [List.drop_zero]; exact hTL) (padLeftJS_length _ 4),
      padLeftJS_map_mask _ 4 (by rw [e4]; omega) (by norm_num)]
  have n0 : jsNum (padLeftJS (20 + pay.length) 4) = some (20 + pay.length) :=
    jsNum_padLeftJS _ 4 (by rw [e4]; omega) (by norm_num)
  have c0 : (20 + pay.length < 1 ∨ 9999 < 20 + pay.length) = False :=
    eq_false (by omega)
  have cav : ((frameBlank mid pay ++ rest).length < 20 + pay.length + 1) = False :=
    eq_false (by omega)
  have hrd := readHeader_blank mid pay rest hmid1 hmid2 hpay
  have hdrop20 : (frameBlank mid pay ++ rest).drop 20 = pay ++ ([0] ++ rest) := by
    rw [hsplit]
    exact drop_exact _ _ 20 hbh
  have hslice : bufSlice (frameBlank mid pay ++ rest) 20 (20 + pay.length) =
      pay := by
    rw [bufSlice, hdrop20, show 20 + pay.length - 20 = pay.length by omega,
      List.take_left' rfl]
  have hget : (frameBlank mid pay ++ rest)[20 + pay.length]? = some 0 := by
    rw [hsplit, getElem_at _ _ 20 pay.length hbh,
      ← Nat.add_zero pay.length, getElem_at _ _ pay.length 0 rfl]
    simp
  have hdropAll : (frameBlank mid pay ++ rest).drop (20 + pay.length + 1) =
      rest := by
    rw [hsplit, show 20 + pay.length + 1 = 20 + (pay.length + 1) from by omega,
      drop_through _ _ (pay.length + 1) 20 hbh,
      drop_through pay ([0] ++ rest) 1 pay.length rfl]
    rfl
  have c900 : (OPMessage.mid
      { mid := mid, revision := 1, noAck := false, stationID := 1,
        spindleID := 1, sequenceNumber := 0, messageParts := 0,
        messageNumber := 0, payload := [] } ≠ 900) = True :=
    eq_true (by simpa using h900)
  obtain ⟨R, hR⟩ : ∃ R, frameBlank mid pay ++ rest = R := ⟨_, rfl⟩
  rw [hR] at hne r0 cav hrd hslice hget hdropAll ⊢
  simp only [loopP, hne, Bool.false_eq_true, if_false, r0, n0, c0, cav, hrd,
    ite_false, hslice, hget, c900, ite_true, hdropAll, if_true]

/-- Vendor option string "AtlasCopco" as the constructor receives it. -/
def vendorOptRaw : List Nat := [65, 116, 108, 97, 115, 67, 111, 112, 99, 111]

theorem loopP_fuel_eq (n : Nat) : ∀ (rest : List Nat) (acc : List OPMessage)
    (f₁ f₂ : Nat), rest.length ≤ n → rest.length < f₁ → rest.length < f₂ →
    loopP f₁ rest acc = loopP f₂ rest acc := by
  induction n using Nat.strong_induction_on with
  | _ n ih =>
    intro rest acc f₁ f₂ hn h1 h2
    obtain ⟨g₁, rfl⟩ : ∃ g, f₁ = g + 1 := ⟨f₁ - 1, by omega⟩
    obtain ⟨g₂, rfl⟩ : ∃ g, f₂ = g + 1 := ⟨f₂ - 1, by omega⟩
    by_cases he : rest.isEmpty
    · simp [loopP, he]
    · have heF : rest.isEmpty = false := by simpa using he
      have hrlen : rest.length ≠ 0 := by
        cases rest with
        | nil => simp at heF
        | cons a t => simp
      cases hjs : jsNum (bufStr rest 0 4) with
      | none => simp only [loopP, heF, Bool.false_eq_true, if_false, hjs]
      | some L =>
        by_cases hL : L < 1 ∨ 9999 < L
        · have hLT := eq_true hL
          simp only [loopP, heF, Bool.false_eq_true, if_false, hjs, hLT,
            ite_true]
        · have hLF := eq_false hL
          by_cases hav : rest.length < L + 1
          · have havT := eq_true hav
            simp only [loopP, heF, Bool.false_eq_true, if_false, hjs, hLF,
              ite_false, havT, ite_true]
          · have havF := eq_false hav
            cases hrd : readHeader rest with
            | error e =>
              simp only [loopP, heF, Bool.false_eq_true, if_false, hjs, hLF,
                ite_false, havF, hrd]
            | ok hdr =>
              by_cases h9 : hdr.mid ≠ 900
              · have h9T := eq_true h9
                cases hterm : rest[L]? with
                | none =>
                  simp only [loopP, heF, Bool.false_eq_true, if_false, hjs,
                    hLF, havF, ite_false, hrd, h9T, ite_true, hterm]
                | some b =>
                  cases b with
                  | zero =>
                    simp only [loopP, heF, Bool.false_eq_true, if_false, hjs,
                      hLF, havF, ite_false, hrd, h9T, ite_true, hterm]
                    have hd : (rest.drop (L + 1)).length =
                        rest.length - (L + 1) := by simp
                    exact ih (n - 1) (by omega) _ _ _ _ (by omega) (by omega)
                      (by omega)
                  | succ b' =>
                    simp only [loopP, heF, Bool.false_eq_true, if_false, hjs,
                      hLF, havF, ite_false, hrd, h9T, ite_true, hterm]
              · have h9F : (hdr.mid ≠ 900) = False := eq_false h9
                simp only [loopP, heF, Bool.false_eq_true, if_false, hjs, hLF,
                  havF, ite_false, hrd, h9F]
                have hd : (rest.drop L).length = rest.length - L := by simp
                exact ih (n - 1) (by omega) _ _ _ _ (by omega) (by omega)
                  (by omega)

theorem loopP_norm (f : Nat) (rest : List Nat) (acc : List OPMessage)
    (h : rest.length < f) :
    loopP f rest acc = loopP (rest.length + 1) rest acc :=
  loopP_fuel_eq rest.length rest acc f (rest.length + 1) le_rfl h (by omega)

theorem frameOf_length (m : OPMessage) :
    (frameOf m).length = 21 + m.payload.length := by
  simp only [frameOf, List.length_append, frameHeader_length]
  simp
  omega

theorem frameNoNul_length (m : OPMessage) :
    (frameNoNul m).length = 20 + m.payload.length := by
  simp only [frameNoNul, List.length_append, frameHeader_length]

theorem opT_frame (m : OPMessage) (hm : InRangeHeader m) (h900 : m.mid ≠ 900) :
    opParserTransform none (frameOf m) = ([m], none, none) := by
  have hlen := frameOf_length m
  have h20 : ((frameOf m).length < 20) = False := eq_false (by omega)
  simp only [opParserTransform, Option.getD_none, List.nil_append, h20, ite_false]
  rw [loopP_norm _ _ _ (by omega),
    show frameOf m = frameOf m ++ ([] : List Nat) from (List.append_nil _).symm,
    loopP_step m [] _ [] hm h900,
    loopP_norm _ _ _ (by simp; omega), loopP_nil]
  simp

theorem opT_two_frames (m1 m2 : OPMessage) (h1 : InRangeHeader m1)
    (h1m : m1.mid ≠ 900) (h2 : InRangeHeader m2) (h2m : m2.mid ≠ 900) :
    opParserTransform none (frameOf m1 ++ frameOf m2) = ([m1, m2], none, none) := by
  have hl1 := frameOf_length m1
  have hl2 := frameOf_length m2
  have hlen : (frameOf m1 ++ frameOf m2).length =
      (frameOf m1).length + (frameOf m2).length := by simp
  have h20 : ((frameOf m1 ++ frameOf m2).length < 20) = False := eq_false (by omega)
  simp only [opParserTransform, Option.getD_none, List.nil_append, h20, ite_false]
  rw [loopP_norm _ _ _ (by omega)]
  rw [show (frameOf m1 ++ frameOf m2).length = (frameOf m1 ++ frameOf m2).length
      - 1 + 1 by omega, loopP_step m1 (frameOf m2) _ [] h1 h1m]
  rw [loopP_norm _ _ _ (by omega),
    show frameOf m2 = frameOf m2 ++ ([] : List Nat) from (List.append_nil _).symm,
    loopP_step m2 [] _ [m1] h2 h2m,
    loopP_norm _ _ _ (by simp; omega), loopP_nil]
  simp

theorem opT_900_then_frame (m1 m2 : OPMessage) (h1 : InRangeHeader m1)
    (h1m : m1.mid = 900) (h2 : InRangeHeader m2) (h2m : m2.mid ≠ 900) :
    opParserTransform none (frameNoNul m1 ++ frameOf m2) =
      ([m1, m2], none, none) := by
  have hl1 := frameNoNul_length m1
  have hl2 := frameOf_length m2
  have hlen : (frameNoNul m1 ++ frameOf m2).length =
      (frameNoNul m1).length + (frameOf m2).length := by simp
  have hfne : frameOf m2 ≠ [] := by
    intro h
    rw [h] at hl2
    simp at hl2
    omega
  have h20 : ((frameNoNul m1 ++ frameOf m2).length < 20) = False :=
    eq_false (by omega)
  simp only [opParserTransform, Option.getD_none, List.nil_append, h20, ite_false]
  rw [loopP_norm _ _ _ (by omega)]
  rw [show (frameNoNul m1 ++ frameOf m2).length =
      (frameNoNul m1 ++ frameOf m2).length - 1 + 1 by omega,
    loopP_step900 m1 (frameOf m2) _ [] h1 h1m hfne]
  rw [loopP_norm _ _ _ (by omega),
    show frameOf m2 = frameOf m2 ++ ([] : List Nat) from (List.append_nil _).symm,
    loopP_step m2 [] _ [m1] h2 h2m,
    loopP_norm _ _ _ (by simp; omega), loopP_nil]
  simp

theorem opT_terminator_err (m : OPMessage) (b : Nat) (rest : List Nat)
    (hm : InRangeHeader m) (h900 : m.mid ≠ 900) (hb : b ≠ 0) :
    opParserTransform none (frameNoNul m ++ (b :: rest)) =
      ([], none, some .invalidTerminator) := by
  have hl := frameNoNul_length m
  have hlen : (frameNoNul m ++ (b :: rest)).length =
      (frameNoNul m).length + (b :: rest).length := by simp
  have hcons : (b :: rest).length = rest.length + 1 := by simp
  have h20 : ((frameNoNul m ++ (b :: rest)).length < 20) = False :=
    eq_false (by omega)
  simp only [opParserTransform, Option.getD_none, List.nil_append, h20, ite_false]
  rw [show (frameNoNul m ++ (b :: rest)).length + 1 =
      (frameNoNul m ++ (b :: rest)).length + 1 - 1 + 1 by omega,
    loopP_termErr m b rest _ [] hm h900 hb]
  simp

theorem opT_blank (mid : Nat) (pay : List Nat) (hmid1 : 1 ≤ mid)
    (hmid2 : mid ≤ 9999) (hpay : 20 + pay.length ≤ 9999) (h900 : mid ≠ 900) :
    opParserTransform none (frameBlank mid pay) =
      ([{ mid := mid, revision := 1, noAck := false, stationID := 1,
          spindleID := 1, sequenceNumber := 0, messageParts := 0,
          messageNumber := 0, payload := pay }], none, none) := by
  have hlen : (frameBlank mid pay).length = 21 + pay.length := by
    simp only [frameBlank, List.length_append, padLeftJS_length]
    simp
    omega
  have h20 : ((frameBlank mid pay).length < 20) = False := eq_false (by omega)
  simp only [opParserTransform, Option.getD_none, List.nil_append, h20, ite_false]
  rw [loopP_norm _ _ _ (by omega),
    show frameBlank mid pay = frameBlank mid pay ++ ([] : List Nat)
      from (List.append_nil _).symm,
    loopP_stepBlank mid pay [] _ [] hmid1 hmid2 hpay h900,
    loopP_norm _ _ _ (by simp; omega), loopP_nil]
  simp

instance (m : OPMessage) : Decidable (InRangeHeader m) := by
  unfold InRangeHeader
  infer_instance

theorem serTransform_AC_frame (m : OPMessage) (hm : InRangeHeader m)
    (hbytes : ∀ b ∈ m.payload, b < 128) :
    serTransform (some vendorOptRaw) m = .pushed (frameOf m) := by
  obtain ⟨hmid1, hmid2, hrev1, hrev2, hst1, hst2, hsp1, hsp2, hsq, hmp, hmn, hpay⟩ := hm
  have c1 : (m.mid < 1 ∨ 9999 < m.mid) = False := eq_false (by omega)
  have c2z : (m.revision = 0) = False := eq_false (by omega)
  have c2 : (999 < m.revision) = False := eq_false (by omega)
  have c4 : (99 < m.stationID) = False := eq_false (by omega)
  have c5 : (99 < m.spindleID) = False := eq_false (by omega)
  have c6 : (99 < m.sequenceNumber) = False := eq_false (by omega)
  have c7 : (9 < m.messageParts) = False := eq_false (by omega)
  have c8 : (9 < m.messageNumber) = False := eq_false (by omega)
  have hv1 : (normalizeVendor vendorOptRaw = vendorBosch) = False := by decide
  have hv2 : (normalizeVendor vendorOptRaw = vendorAtlasCopco) = True := by decide
  have hmask : m.payload.map (fun c => c % 128) = m.payload := by
    rw [List.map_congr_left (fun c hc => Nat.mod_eq_of_lt (hbytes c hc))]
    simp
  simp only [serTransform, c1, ite_false, c2z, c2, c4, c5, c6, c7, c8, hv1,
    hv2, ite_true, serializeFrameStd, hmask]

/-- C1: for every Message whose header fields are in the codec ranges, whose
stationID and spindleID are at least 1, whose mid is not 900, and whose
payload bytes are 7-bit (all below 0x80) with `20 + |payload|` at most 9999,
serializing through the AtlasCopco path of OpenProtocolSerializer produces the
framed bytes of the message, and one OpenProtocolParser `_transform` call on
those bytes emits exactly the original message with no error and no carry
(amended from the original claim: stationID/spindleID 0 are read back as 1,
a serialized MID 900 frame trips an InvalidLength error on its own trailing
NUL, and payload bytes at or above 0x80 are masked by the ascii round trip). -/
theorem claim1_roundtrip (m : OPMessage) (hm : InRangeHeader m)
    (h900 : m.mid ≠ 900) (hbytes : ∀ b ∈ m.payload, b < 128) :
    serTransform (some vendorOptRaw) m = .pushed (frameOf m) ∧
    opParserTransform none (frameOf m) = ([m], none, none) :=
  ⟨serTransform_AC_frame m hm hbytes, opT_frame m hm h900⟩

/-- C1 counterexample: the claim as stated fails on the code.  A message with
stationID 0 (within the claim's declared 0..99 range) parses back with
stationID 1; a MID 900 message's own serialized frame makes the parser emit
the message and then fail with InvalidLength on the trailing NUL it never
consumes; a payload byte 200 comes back as 72 (200 & 0x7F). -/
theorem claim1_roundtrip_counterexample :
    serTransform (some vendorOptRaw)
        { mid := 2, revision := 1, noAck := false, stationID := 0,
          spindleID := 1, sequenceNumber := 0, messageParts := 0,
          messageNumber := 0, payload := [] } =
      .pushed (frameOf
        { mid := 2, revision := 1, noAck := false, stationID := 0,
          spindleID := 1, sequenceNumber := 0, messageParts := 0,
          messageNumber := 0, payload := [] }) ∧
    opParserTransform none (frameOf
        { mid := 2, revision := 1, noAck := false, stationID := 0,
          spindleID := 1, sequenceNumber := 0, messageParts := 0,
          messageNumber := 0, payload := [] }) =
      ([{ mid := 2, revision := 1, noAck := false, stationID := 1,
          spindleID := 1, sequenceNumber := 0, messageParts := 0,
          messageNumber := 0, payload := [] }], none, none) ∧
    ({ mid := 2, revision := 1, noAck := false, stationID := 1,
       spindleID := 1, sequenceNumber := 0, messageParts := 0,
       messageNumber := 0, payload := [] } : OPMessage) ≠
      { mid := 2, revision := 1, noAck := false, stationID := 0,
        spindleID := 1, sequenceNumber := 0, messageParts := 0,
        messageNumber := 0, payload := [] } ∧
    opParserTransform none (frameOf
        { mid := 900, revision := 1, noAck := false, stationID := 1,
          spindleID := 1, sequenceNumber := 0, messageParts := 0,
          messageNumber := 0, payload := [] }) =
      ([{ mid := 900, revision := 1, noAck := false, stationID := 1,
          spindleID := 1, sequenceNumber := 0, messageParts := 0,
          messageNumber := 0, payload := [] }], none,
        some .invalidLength) ∧
    serTransform (some vendorOptRaw)
        { mid := 2, revision := 1, noAck := false, stationID := 1,
          spindleID := 1, sequenceNumber := 0, messageParts := 0,
          messageNumber := 0, payload := [200] } =
      .pushed (serializeFrameStd
        { mid := 2, revision := 1, noAck := false, stationID := 1,
          spindleID := 1, sequenceNumber := 0, messageParts := 0,
          messageNumber := 0, payload := [200] }) ∧
    opParserTransform none (serializeFrameStd
        { mid := 2, revision := 1, noAck := false, stationID := 1,
          spindleID := 1, sequenceNumber := 0, messageParts := 0,
          messageNumber := 0, payload := [200] }) =
      ([{ mid := 2, revision := 1, noAck := false, stationID := 1,
          spindleID := 1, sequenceNumber := 0, messageParts := 0,
          messageNumber := 0, payload := [72] }], none, none) := by
  decide

theorem claim1_roundtrip_witness :
    InRangeHeader (⟨2, 1, false, 1, 1, 0, 0, 0, [65]⟩ : OPMessage) ∧
    (⟨2, 1, false, 1, 1, 0, 0, 0, [65]⟩ : OPMessage).mid ≠ 900 ∧
    (∀ b ∈ (⟨2, 1, false, 1, 1, 0, 0, 0, [65]⟩ : OPMessage).payload, b < 128) ∧
    (serTransform (some vendorOptRaw) ⟨2, 1, false, 1, 1, 0, 0, 0, [65]⟩ =
        .pushed (frameOf ⟨2, 1, false, 1, 1, 0, 0, 0, [65]⟩) ∧
      opParserTransform none (frameOf ⟨2, 1, false, 1, 1, 0, 0, 0, [65]⟩) =
        ([⟨2, 1, false, 1, 1, 0, 0, 0, [65]⟩], none, none)) :=
  ⟨by decide, by decide, by decide,
    claim1_roundtrip _ (by decide) (by decide) (by decide)⟩

/-- C2: the carry buffer does not make parsing invariant under re-chunking;
this theorem exhibits the failing input.  Two minimal framed MID 1 messages
fed as a single chunk parse to two messages with no error, but the same bytes
split after 22 bytes (so that the second chunk boundary leaves the lone
length-field byte "0" after the first message) make the same parser emit the
first message and then fail with InvalidLength, because the loop re-reads a
partial length field instead of stashing fewer than 4 leftover bytes. -/
theorem claim2_chunk_boundary :
    runChunks [frameOf ⟨1, 1, false, 1, 1, 0, 0, 0, []⟩ ++
        frameOf ⟨1, 1, false, 1, 1, 0, 0, 0, []⟩] =
      ([⟨1, 1, false, 1, 1, 0, 0, 0, []⟩, ⟨1, 1, false, 1, 1, 0, 0, 0, []⟩],
        none) ∧
    runChunks [(frameOf ⟨1, 1, false, 1, 1, 0, 0, 0, []⟩ ++
        frameOf ⟨1, 1, false, 1, 1, 0, 0, 0, []⟩).take 22,
      (frameOf ⟨1, 1, false, 1, 1, 0, 0, 0, []⟩ ++
        frameOf ⟨1, 1, false, 1, 1, 0, 0, 0, []⟩).drop 22] =
      ([⟨1, 1, false, 1, 1, 0, 0, 0, []⟩], some .invalidLength) := by
  decide

/-- C4 (amended): a well-formed MID 900 frame without trailing 0x00 parses
successfully as soon as at least one byte beyond it is available (here: a
following frame), consuming no terminator; for every MID other than 900 --
including 901 -- a non-0x00 byte after the payload fails the parse with
InvalidTerminator, and otherwise exactly one NUL is consumed (the byte after
it starts the next frame).  Amended from the original claim: the operative
parser exempts only MID 900, not 901, and a lone 900 frame is stashed until
one more byte arrives. -/
theorem claim4_terminator (m1 m2 m3 : OPMessage) (b : Nat) (rest : List Nat)
    (h1 : InRangeHeader m1) (h1m : m1.mid = 900)
    (h2 : InRangeHeader m2) (h2m : m2.mid ≠ 900)
    (h3 : InRangeHeader m3) (h3m : m3.mid ≠ 900)
    (hb : b ≠ 0) :
    opParserTransform none (frameNoNul m1 ++ frameOf m2) =
      ([m1, m2], none, none) ∧
    opParserTransform none (frameNoNul m3 ++ (b :: rest)) =
      ([], none, some .invalidTerminator) ∧
    opParserTransform none (frameOf m2 ++ frameOf m3) =
      ([m2, m3], none, none) :=
  ⟨opT_900_then_frame m1 m2 h1 h1m h2 h2m,
    opT_terminator_err m3 b rest h3 h3m hb,
    opT_two_frames m2 m3 h2 h2m h3 h3m⟩

/-- C4 counterexample: the claim as stated fails on the code.  A well-formed
MID 901 frame without trailing 0x00, followed by the first byte of the next
message, is rejected with InvalidTerminator (the parser exempts only MID
900), and a lone MID 900 frame without terminator is not accepted either: it
is stashed in the carry buffer awaiting one more byte. -/
theorem claim4_terminator_counterexample :
    opParserTransform none
        (frameNoNul ⟨901, 1, false, 1, 1, 0, 0, 0, [65]⟩ ++ [48]) =
      ([], none, some .invalidTerminator) ∧
    opParserTransform none (frameNoNul ⟨900, 1, false, 1, 1, 0, 0, 0, [65]⟩) =
      ([], some (frameNoNul ⟨900, 1, false, 1, 1, 0, 0, 0, [65]⟩), none) := by
  decide

theorem claim4_terminator_witness :
    InRangeHeader (⟨900, 1, false, 1, 1, 0, 0, 0, [65]⟩ : OPMessage) ∧
    (⟨900, 1, false, 1, 1, 0, 0, 0, [65]⟩ : OPMessage).mid = 900 ∧
    InRangeHeader (⟨2, 1, false, 1, 1, 0, 0, 0, []⟩ : OPMessage) ∧
    (⟨2, 1, false, 1, 1, 0, 0, 0, []⟩ : OPMessage).mid ≠ 900 ∧
    InRangeHeader (⟨3, 1, false, 1, 1, 0, 0, 0, [66]⟩ : OPMessage) ∧
    (⟨3, 1, false, 1, 1, 0, 0, 0, [66]⟩ : OPMessage).mid ≠ 900 ∧
    (49 : Nat) ≠ 0 ∧
    (opParserTransform none
        (frameNoNul ⟨900, 1, false, 1, 1, 0, 0, 0, [65]⟩ ++
          frameOf ⟨2, 1, false, 1, 1, 0, 0, 0, []⟩) =
      ([⟨900, 1, false, 1, 1, 0, 0, 0, [65]⟩,
        ⟨2, 1, false, 1, 1, 0, 0, 0, []⟩], none, none) ∧
    opParserTransform none
        (frameNoNul ⟨3, 1, false, 1, 1, 0, 0, 0, [66]⟩ ++ (49 :: [])) =
      ([], none, some .invalidTerminator) ∧
    opParserTransform none
        (frameOf ⟨2, 1, false, 1, 1, 0, 0, 0, []⟩ ++
          frameOf ⟨3, 1, false, 1, 1, 0, 0, 0, [66]⟩) =
      ([⟨2, 1, false, 1, 1, 0, 0, 0, []⟩,
        ⟨3, 1, false, 1, 1, 0, 0, 0, [66]⟩], none, none)) :=
  ⟨by decide, by decide, by decide, by decide, by decide, by decide, by decide,
    claim4_terminator _ _ _ 49 [] (by decide) (by decide) (by decide)
      (by decide) (by decide) (by decide) (by decide)⟩

/-- C7 (amended): a frame whose revision field is three blanks parses with
revision 1, a blank noAck parses false, and blank sequenceNumber,
messageParts and messageNumber fields parse to 0, for every well-formed frame
with mid in 1..9999 (other than the terminator-exempt 900) and any payload;
amended from the original claim: blank stationID and spindleID parse to 1,
not 0, in the operative parser. -/
theorem claim7_blank_defaults (mid : Nat) (pay : List Nat) (h1 : 1 ≤ mid)
    (h2 : mid ≤ 9999) (h3 : 20 + pay.length ≤ 9999) (h900 : mid ≠ 900) :
    opParserTransform none (frameBlank mid pay) =
      ([{ mid := mid, revision := 1, noAck := false, stationID := 1,
          spindleID := 1, sequenceNumber := 0, messageParts := 0,
          messageNumber := 0, payload := pay }], none, none) :=
  opT_blank mid pay h1 h2 h3 h900

/-- C7 counterexample: the claim as stated fails on the code.  A well-formed
MID 2 frame with all-blank optional fields parses with stationID 1 and
spindleID 1, not the 0 the claim asserts. -/
theorem claim7_blank_defaults_counterexample :
    opParserTransform none (frameBlank 2 [65]) =
      ([⟨2, 1, false, 1, 1, 0, 0, 0, [65]⟩], none, none) ∧
    (opParserTransform none (frameBlank 2 [65])).1 ≠
      [⟨2, 1, false, 0, 0, 0, 0, 0, [65]⟩] := by
  decide

theorem claim7_blank_defaults_witness :
    1 ≤ 3 ∧ (3 : Nat) ≤ 9999 ∧ 20 + ([66] : List Nat).length ≤ 9999 ∧
    (3 : Nat) ≠ 900 ∧
    opParserTransform none (frameBlank 3 [66]) =
      ([⟨3, 1, false, 1, 1, 0, 0, 0, [66]⟩], none, none) :=
  ⟨by decide, by decide, by decide, by decide,
    claim7_blank_defaults 3 [66] (by decide) (by decide) (by decide)
      (by decide)⟩

/-- C10 (amended): for every message whose fields pass the serializer's
validation (mid 1..9999, revision 1..999, stationID/spindleID at most 99,
sequenceNumber at most 99, messageParts/messageNumber at most 9), a vendor
string that does not normalize (trim + lower-case) to bosch, atlascopco or
desoutter makes the write fail with Unsupported vendor and no frame, a missing
vendor option makes the write throw a TypeError (reading trim of undefined),
and the bosch and desoutter vendors push their respective frames.  Amended
from the original claim: the TypeError is NOT thrown before validation -- the
field checks run first, so a field-invalid write errors normally even with no
vendor configured. -/
theorem claim10_vendor_dispatch (m : OPMessage) (v : List Nat)
    (h1 : 1 ≤ m.mid) (h2 : m.mid ≤ 9999)
    (h3 : 1 ≤ m.revision) (h3b : m.revision ≤ 999)
    (h4 : m.stationID ≤ 99) (h5 : m.spindleID ≤ 99)
    (h6 : m.sequenceNumber ≤ 99) (h7 : m.messageParts ≤ 9)
    (h8 : m.messageNumber ≤ 9)
    (hv1 : normalizeVendor v ≠ vendorBosch)
    (hv2 : normalizeVendor v ≠ vendorAtlasCopco)
    (hv3 : normalizeVendor v ≠ vendorDesoutter) :
    serTransform (some v) m = .errored .unsupportedVendor ∧
    serTransform none m = .thrownTypeError ∧
    serTransform (some vendorBosch) m = .pushed (serializeFrameStd m) ∧
    serTransform (some vendorDesoutter) m =
      .pushed (serializeFrameDesoutter m) := by
  have c1 : (m.mid < 1 ∨ 9999 < m.mid) = False := eq_false (by omega)
  have c2z : (m.revision = 0) = False := eq_false (by omega)
  have c2 : (999 < m.revision) = False := eq_false (by omega)
  have c4 : (99 < m.stationID) = False := eq_false (by omega)
  have c5 : (99 < m.spindleID) = False := eq_false (by omega)
  have c6 : (99 < m.sequenceNumber) = False := eq_false (by omega)
  have c7 : (9 < m.messageParts) = False := eq_false (by omega)
  have c8 : (9 < m.messageNumber) = False := eq_false (by omega)
  have hb1 : (normalizeVendor vendorBosch = vendorBosch) = True := by decide
  have hd1 : (normalizeVendor vendorDesoutter = vendorBosch) = False := by
    decide
  have hd2 : (normalizeVendor vendorDesoutter = vendorAtlasCopco) = False := by
    decide
  have hd3 : (normalizeVendor vendorDesoutter = vendorDesoutter) = True := by
    decide
  have hv1' : (normalizeVendor v = vendorBosch) = False := eq_false hv1
  have hv2' : (normalizeVendor v = vendorAtlasCopco) = False := eq_false hv2
  have hv3' : (normalizeVendor v = vendorDesoutter) = False := eq_false hv3
  refine ⟨?_, ?_, ?_, ?_⟩ <;>
    simp only [serTransform, c1, c2z, c2, c4, c5, c6, c7, c8, hv1', hv2',
      hv3', hb1, hd1, hd2, hd3, ite_false, ite_true]

/-- C10 counterexample: the claim as stated fails on the code.  With no
vendor option configured, a write whose mid is out of range (here 0) does not
throw the claimed TypeError: OpenProtocolSerializer validates the fields
first, so the callback receives an Invalid MID error before the vendor
dispatch line is ever reached. -/
theorem claim10_vendor_dispatch_counterexample :
    serTransform none ⟨0, 1, false, 1, 1, 0, 0, 0, []⟩ =
      .errored .invalidMid ∧
    serTransform none ⟨0, 1, false, 1, 1, 0, 0, 0, []⟩ ≠ .thrownTypeError ∧
    serTransform (some [97, 99, 109, 101]) ⟨0, 1, false, 1, 1, 0, 0, 0, []⟩ =
      .errored .invalidMid := by
  decide

theorem claim10_vendor_dispatch_witness :
    1 ≤ 2 ∧ (2 : Nat) ≤ 9999 ∧ 1 ≤ 1 ∧ (1 : Nat) ≤ 999 ∧ (1 : Nat) ≤ 99 ∧
    (1 : Nat) ≤ 99 ∧ (0 : Nat) ≤ 99 ∧ (0 : Nat) ≤ 9 ∧ (0 : Nat) ≤ 9 ∧
    normalizeVendor [97, 99, 109, 101] ≠ vendorBosch ∧
    normalizeVendor [97, 99, 109, 101] ≠ vendorAtlasCopco ∧
    normalizeVendor [97, 99, 109, 101] ≠ vendorDesoutter ∧
    (serTransform (some [97, 99, 109, 101]) ⟨2, 1, false, 1, 1, 0, 0, 0, [65]⟩ =
      .errored .unsupportedVendor ∧
    serTransform none ⟨2, 1, false, 1, 1, 0, 0, 0, [65]⟩ = .thrownTypeError ∧
    serTransform (some vendorBosch) ⟨2, 1, false, 1, 1, 0, 0, 0, [65]⟩ =
      .pushed (serializeFrameStd ⟨2, 1, false, 1, 1, 0, 0, 0, [65]⟩) ∧
    serTransform (some vendorDesoutter) ⟨2, 1, false, 1, 1, 0, 0, 0, [65]⟩ =
      .pushed (serializeFrameDesoutter ⟨2, 1, false, 1, 1, 0, 0, 0, [65]⟩)) :=
  ⟨by decide, by decide, by decide, by decide, by decide, by decide,
    by decide, by decide, by decide, by decide, by decide, by decide,
    claim10_vendor_dispatch _ [97, 99, 109, 101] (by decide) (by decide)
      (by decide) (by decide) (by decide) (by decide) (by decide) (by decide)
      (by decide) (by decide) (by decide) (by decide)⟩

/-!
LinkLayer multipart splitting, `_onDataMidSerializer` of part_002: payloads
over 9979 bytes are cut into slices of at most 9979 bytes, each written with
`messageParts` set to `Math.ceil(length / 9979)` and `messageNumber` counting
up from 1; more than 9 parts aborts with an error before any write.
-/

/-- `Math.ceil(length / 9979)` on a natural byte count. -/
def partsCeil (len : Nat) : Nat := (len + 9978) / 9979

/-- The `while (fullPayload.length > 0)` loop of `_onDataMidSerializer`:
pairs of the running `messageNumber` (`msgPart`, starting at 1) with the
payload slice written in that iteration. -/
def splitLoop (msgPart : Nat) (fullPayload : List Nat) : List (Nat × List Nat) :=
  if h : 9979 < fullPayload.length then
    (msgPart, fullPayload.take 9979) ::
      splitLoop (msgPart + 1) (fullPayload.drop 9979)
  else
    [(msgPart, fullPayload)]
termination_by fullPayload.length
decreasing_by simp; omega

/-- Outcome of `_onDataMidSerializer` on a non-ack message: the multipart
error path (`parts > 9`, nothing written), the single-frame path (payload at
most 9979 bytes, message written unchanged), or the multipart frames, each
carrying the common `messageParts` count and its `messageNumber`. -/
inductive MultiOut where
  | tooLarge
  | single
  | frames (parts : Nat) (messages : List (Nat × List Nat))
deriving DecidableEq, Repr

/-- The payload-splitting logic of `_onDataMidSerializer`. -/
def onDataMidSplit (payload : List Nat) : MultiOut :=
  if 9979 < payload.length then
    let parts := partsCeil payload.length
    if 9 < parts then .tooLarge
    else .frames parts (splitLoop 1 payload)
  else .single

theorem splitLoop_count (msgPart : Nat) (fullPayload : List Nat) :
    1 ≤ fullPayload.length →
    (splitLoop msgPart fullPayload).length = partsCeil fullPayload.length := by
  induction msgPart, fullPayload using splitLoop.induct with
  | case1 mp pl hgt ih =>
    intro h
    rw [splitLoop, dif_pos hgt, List.length_cons, ih (by simp; omega)]
    simp only [partsCeil, List.length_drop]
    omega
  | case2 mp pl hle =>
    intro h
    rw [splitLoop, dif_neg hle, partsCeil]
    simp only [List.length_singleton]
    omega

theorem splitLoop_concat (msgPart : Nat) (fullPayload : List Nat) :
    ((splitLoop msgPart fullPayload).map Prod.snd).flatten = fullPayload := by
  induction msgPart, fullPayload using splitLoop.induct with
  | case1 mp pl hgt ih =>
    rw [splitLoop, dif_pos hgt]
    simp only [List.map_cons, List.flatten_cons, ih]
    exact List.take_append_drop 9979 pl
  | case2 mp pl hle =>
    rw [splitLoop, dif_neg hle]
    simp

theorem splitLoop_numbers (msgPart : Nat) (fullPayload : List Nat) :
    (splitLoop msgPart fullPayload).map Prod.fst =
      List.range' msgPart (splitLoop msgPart fullPayload).length := by
  induction msgPart, fullPayload using splitLoop.induct with
  | case1 mp pl hgt ih =>
    rw [splitLoop, dif_pos hgt]
    simp only [List.map_cons, List.length_cons, ih]
    rw [List.range'_succ]
  | case2 mp pl hle =>
    rw [splitLoop, dif_neg hle]
    simp [List.range'_succ]

theorem splitLoop_sizes (msgPart : Nat) (fullPayload : List Nat) :
    ∀ p ∈ splitLoop msgPart fullPayload, p.2.length ≤ 9979 := by
  induction msgPart, fullPayload using splitLoop.induct with
  | case1 mp pl hgt ih =>
    rw [splitLoop, dif_pos hgt]
    intro p hp
    rcases List.mem_cons.mp hp with h | h
    · subst h; simp
    · exact ih p h
  | case2 mp pl hle =>
    rw [splitLoop, dif_neg hle]
    intro p hp
    rcases List.mem_singleton.mp hp with rfl
    exact Nat.le_of_not_lt hle

/-- C5: for every payload longer than 9979 bytes, `_onDataMidSerializer`
computes `parts = ceil(length / 9979)`; when parts exceeds 9 it emits a
too-large error and writes no frame, and otherwise it writes exactly `parts`
consecutive frames whose `messageNumber`s run 1..parts in order, whose
payload slices are each at most 9979 bytes, and whose concatenation is the
original payload, every frame carrying `messageParts = parts`. -/
theorem claim5_multipart (payload : List Nat) (h : 9979 < payload.length) :
    (9 < partsCeil payload.length →
      onDataMidSplit payload = .tooLarge) ∧
    (partsCeil payload.length ≤ 9 →
      onDataMidSplit payload =
        .frames (partsCeil payload.length) (splitLoop 1 payload) ∧
      (splitLoop 1 payload).length = partsCeil payload.length ∧
      (splitLoop 1 payload).map Prod.fst =
        List.range' 1 (partsCeil payload.length) ∧
      ((splitLoop 1 payload).map Prod.snd).flatten = payload ∧
      ∀ p ∈ splitLoop 1 payload, p.2.length ≤ 9979) := by
  have hp : (9979 < payload.length) = True := eq_true h
  constructor
  · intro h9
    have h9' : (9 < partsCeil payload.length) = True := eq_true h9
    simp only [onDataMidSplit, hp, h9', if_true]
  · intro h9
    have h9' : (9 < partsCeil payload.length) = False := eq_false (by omega)
    have hc := splitLoop_count 1 payload (by omega)
    refine ⟨by simp only [onDataMidSplit, hp, h9', if_true, if_false],
      hc, ?_, splitLoop_concat 1 payload, splitLoop_sizes 1 payload⟩
    rw [splitLoop_numbers 1 payload, hc]

theorem claim5_multipart_witness :
    9979 < (List.replicate 112264 (0 : Nat)).length ∧
    ((9 < partsCeil (List.replicate 112264 (0 : Nat)).length →
      onDataMidSplit (List.replicate 112264 (0 : Nat)) = .tooLarge) ∧
    (partsCeil (List.replicate 112264 (0 : Nat)).length ≤ 9 →
      onDataMidSplit (List.replicate 112264 (0 : Nat)) =
        .frames (partsCeil (List.replicate 112264 (0 : Nat)).length)
          (splitLoop 1 (List.replicate 112264 (0 : Nat))) ∧
      (splitLoop 1 (List.replicate 112264 (0 : Nat))).length =
        partsCeil (List.replicate 112264 (0 : Nat)).length ∧
      (splitLoop 1 (List.replicate 112264 (0 : Nat))).map Prod.fst =
        List.range' 1 (partsCeil (List.replicate 112264 (0 : Nat)).length) ∧
      ((splitLoop 1 (List.replicate 112264 (0 : Nat))).map
          Prod.snd).flatten = List.replicate 112264 (0 : Nat) ∧
      ∀ p ∈ splitLoop 1 (List.replicate 112264 (0 : Nat)),
        p.2.length ≤ 9979)) :=
  ⟨by rw [List.length_replicate]; omega,
    claim5_multipart _ (by rw [List.length_replicate]; omega)⟩

/-!
LinkLayer write-completion state machine (part_002).  The model covers the
state touched by the completion callback of a caller write: `_write`,
`_onDataMidSerializer` (single-frame path), `_onErrorSerializer`,
`_resendMid` and `_receiverLinkLayer`.  Each event is one externally
triggered entry into the class; the returned action list records, in order,
the transport writes, completion-callback invocations (with their origin and
whether an error argument was passed), and `error` / `errorSerializer`
emissions performed during that entry.  A write whose MID serialization
fails is one event (`writeSerErr`), because the serializer emits its error
synchronously inside `midSerializer.write`.  Sequence numbers are `Int`
because `_onErrorSerializer` decrements without a lower bound. -/

/-- The pending outbound message stored in `this.message`. -/
structure LLMsg where
  mid : Nat
  seq : Int
deriving DecidableEq, Repr

/-- LinkLayer state relevant to write completion. -/
structure LLState where
  linkLayerActive : Bool
  sequenceNumber : Int
  callbackWrite : Bool
  resentTimes : Nat
  retryTimes : Nat
  timerArmed : Bool
  message : Option LLMsg
deriving DecidableEq, Repr

/-- Which code path invoked the caller's completion callback. -/
inductive CbOrigin where
  | ackArrival
  | timeoutExhausted
  | serializerError
  | ackImmediate
deriving DecidableEq, Repr

/-- Externally observable actions of one event. -/
inductive LLAction where
  | transportWrite (mid : Nat) (seq : Int)
  | cbFired (origin : CbOrigin) (withError : Bool)
  | emitError
  | emitErrorSerializer
deriving DecidableEq, Repr

/-- External events driving the LinkLayer.  `ackArrive` is a PAK/NAK
delivered by the MID parser to `_receiverLinkLayer`; `timerFire` is the
retransmit timer elapsing (only possible while armed). -/
inductive LLEvent where
  | write (mid : Nat) (isAck : Bool)
  | writeSerErr (mid : Nat)
  | timerFire
  | ackArrive (neg : Bool) (midNumber : Nat) (seq : Int)
deriving DecidableEq, Repr

/-- One event step.  `write` with `isAck` fires the callback immediately and
passes the message through without assigning a sequence number (recorded as
0); a non-ack write stores the callback, assigns `sequenceNumber++` (wrapping
above 99 back to 1) when active, arms the timer and stores the message unless
the mid is the PAK/NAK 9997/9998, and writes one frame.  `writeSerErr` runs
the same `_write` body and then `_onErrorSerializer`: active mode decrements
the post-increment sequence number, the just-stored callback fires with no
error argument, and `errorSerializer` is emitted.  `timerFire` resends the
stored message and re-arms while `resentTimes < retryTimes`, else fires the
callback with a Timeout error (or emits `error` if no write is pending) and
leaves the timer unarmed.  `ackArrive` clears the timer; a negative ack, a
mid different from the stored message's, or a sequence number different from
the current one is a mismatch that fires the callback with an error (or
emits `error`), while a match clears the stored message and fires the
callback with no error. -/
def step (s : LLState) (e : LLEvent) : LLState × List LLAction :=
  match e with
  | .write mid isAck =>
    if isAck then
      ({ s with timerArmed := false },
        [.cbFired .ackImmediate false, .transportWrite mid 0])
    else
      let assigned : Int := if s.linkLayerActive then s.sequenceNumber else 0
      let seqNext : Int :=
        if s.linkLayerActive then
          if 99 < s.sequenceNumber + 1 then 1 else s.sequenceNumber + 1
        else s.sequenceNumber
      if mid = 9997 ∨ mid = 9998 then
        ({ s with callbackWrite := true, resentTimes := 0, sequenceNumber := seqNext },
          [.transportWrite mid assigned])
      else
        ({ s with callbackWrite := true, resentTimes := 0, sequenceNumber := seqNext, timerArmed := true, message := some ⟨mid, assigned⟩ },
          [.transportWrite mid assigned])
  | .writeSerErr _ =>
    let seqNext : Int :=
      if s.linkLayerActive then
        if 99 < s.sequenceNumber + 1 then 1 else s.sequenceNumber + 1
      else s.sequenceNumber
    let seqAfter : Int := if s.linkLayerActive then seqNext - 1 else seqNext
    ({ s with callbackWrite := false, resentTimes := 0, sequenceNumber := seqAfter },
      [.cbFired .serializerError false, .emitErrorSerializer])
  | .timerFire =>
    if s.timerArmed then
      if s.resentTimes < s.retryTimes then
        ({ s with resentTimes := s.resentTimes + 1 },
          match s.message with
          | some m => [.transportWrite m.mid m.seq]
          | none => [])
      else
        ({ s with timerArmed := false, resentTimes := 0, callbackWrite := false },
          if s.callbackWrite then [.cbFired .timeoutExhausted true]
          else [.emitError])
    else (s, [])
  | .ackArrive neg midNumber seq =>
    let mismatch : Bool :=
      neg ||
        (match s.message with
          | some m => !(midNumber == m.mid)
          | none => true) ||
        !(seq == s.sequenceNumber)
    (if mismatch then { s with timerArmed := false, callbackWrite := false }
     else { s with timerArmed := false, callbackWrite := false, message := none },
     if s.callbackWrite then [.cbFired .ackArrival mismatch]
     else if mismatch then [.emitError] else [])

/-- Run a list of events, accumulating actions in order. -/
def runLL (s : LLState) : List LLEvent → LLState × List LLAction
  | [] => (s, [])
  | e :: es =>
    let p := step s e
    let q := runLL p.1 es
    (q.1, p.2 ++ q.2)

/-- Completion-callback invocations among a list of actions. -/
def isCbFire : LLAction → Bool
  | .cbFired _ _ => true
  | _ => false

/-- Transport writes among a list of actions. -/
def isTW : LLAction → Bool
  | .transportWrite _ _ => true
  | _ => false

/-- Number of completion-callback invocations. -/
def cbCount (l : List LLAction) : Nat := l.countP isCbFire

/-- Events that store a fresh caller write. -/
def isWriteEv : LLEvent → Bool
  | .write _ _ => true
  | .writeSerErr _ => true
  | _ => false

/-- 1 if a write is pending (its callback is stored), else 0. -/
def cbSlot (s : LLState) : Nat := if s.callbackWrite then 1 else 0

theorem step_cb_exact (s : LLState) (e : LLEvent) (h : isWriteEv e = false) :
    cbCount (step s e).2 + cbSlot (step s e).1 = cbSlot s := by
  cases e with
  | write mid isAck => simp [isWriteEv] at h
  | writeSerErr mid => simp [isWriteEv] at h
  | timerFire =>
    by_cases ht : s.timerArmed
    · by_cases hr : s.resentTimes < s.retryTimes
      · cases hm : s.message <;>
          simp [step, ht, hr, hm, cbCount, cbSlot, isCbFire]
      · by_cases hc : s.callbackWrite <;>
          simp [step, ht, hr, hc, cbCount, cbSlot, isCbFire]
    · simp [step, ht, cbCount, cbSlot]
  | ackArrive neg midNumber seq =>
    by_cases hc : s.callbackWrite
    · cases hmm : (neg ||
          (match s.message with
            | some m => !(midNumber == m.mid)
            | none => true) ||
          !(seq == s.sequenceNumber)) <;>
        simp [step, hc, hmm, cbCount, cbSlot, isCbFire]
    · cases hmm : (neg ||
          (match s.message with
            | some m => !(midNumber == m.mid)
            | none => true) ||
          !(seq == s.sequenceNumber)) <;>
        simp [step, hc, hmm, cbCount, cbSlot, isCbFire]

theorem runLL_cb_exact (es : List LLEvent) :
    ∀ s : LLState, (∀ e ∈ es, isWriteEv e = false) →
      cbCount (runLL s es).2 + cbSlot (runLL s es).1 = cbSlot s := by
  induction es with
  | nil => intro s _; simp [runLL, cbCount]
  | cons e es ih =>
    intro s h
    have h1 := step_cb_exact s e (h e (by simp))
    have h2 := ih (step s e).1 (fun x hx => h x (by simp [hx]))
    simp only [runLL, cbCount, List.countP_append] at h1 h2 ⊢
    omega

theorem step_write_nonack (s : LLState) (mid : Nat) :
    cbCount (step s (.write mid false)).2 = 0 ∧
    (step s (.write mid false)).1.callbackWrite = true := by
  by_cases h : mid = 9997 ∨ mid = 9998 <;>
    simp [step, h, cbCount, isCbFire]

/-- C3: starting from a state with no pending write, a caller write of a
non-ack message followed by any sequence of further events that contains no
other caller write -- timer fires and ack arrivals (matching, mismatched or
negative) in any interleaving -- invokes the completion callback at most
once; if at the end of the run no write is pending (the write was completed
by an ack, a mismatch error or retry exhaustion), the callback was invoked
exactly once.  A write with `isAck` set fires its callback exactly once,
immediately, from the fire-and-forget path. -/
theorem claim3_callback_once (s₀ : LLState) (mid : Nat) (es : List LLEvent)
    (h0 : s₀.callbackWrite = false)
    (hes : ∀ e ∈ es, isWriteEv e = false) :
    cbCount (runLL s₀ (.write mid false :: es)).2 ≤ 1 ∧
    ((runLL s₀ (.write mid false :: es)).1.callbackWrite = false →
      cbCount (runLL s₀ (.write mid false :: es)).2 = 1) ∧
    (runLL s₀ [.write mid true]).2 =
      [.cbFired .ackImmediate false, .transportWrite mid 0] := by
  obtain ⟨ha1, ha2⟩ := step_write_nonack s₀ mid
  have hb := runLL_cb_exact es (step s₀ (.write mid false)).1 hes
  have hsplit : (runLL s₀ (.write mid false :: es)).2 =
      (step s₀ (.write mid false)).2 ++
        (runLL (step s₀ (.write mid false)).1 es).2 := rfl
  have hst : (runLL s₀ (.write mid false :: es)).1 =
      (runLL (step s₀ (.write mid false)).1 es).1 := rfl
  have hcb : cbCount (runLL s₀ (.write mid false :: es)).2 =
      cbCount (runLL (step s₀ (.write mid false)).1 es).2 := by
    rw [hsplit, cbCount, List.countP_append, ← cbCount, ← cbCount, ha1]
    omega
  have hslot : cbSlot (step s₀ (.write mid false)).1 = 1 := by
    rw [cbSlot, ha2]
    rfl
  rw [hslot] at hb
  refine ⟨?_, ?_, ?_⟩
  · rw [hcb]
    omega
  · intro hfin
    rw [hst] at hfin
    have hz : cbSlot (runLL (step s₀ (.write mid false)).1 es).1 = 0 := by
      rw [cbSlot, hfin]
      rfl
    rw [hcb]
    omega
  · simp [step, runLL]

theorem claim3_callback_once_witness :
    (⟨true, 1, false, 0, 3, false, none⟩ : LLState).callbackWrite = false ∧
    (∀ e ∈ ([.timerFire, .ackArrive true 18 2, .timerFire] : List LLEvent),
      isWriteEv e = false) ∧
    (cbCount (runLL ⟨true, 1, false, 0, 3, false, none⟩
        (.write 18 false ::
          [.timerFire, .ackArrive true 18 2, .timerFire])).2 ≤ 1 ∧
    ((runLL ⟨true, 1, false, 0, 3, false, none⟩
        (.write 18 false ::
          [.timerFire, .ackArrive true 18 2, .timerFire])).1.callbackWrite =
        false →
      cbCount (runLL ⟨true, 1, false, 0, 3, false, none⟩
        (.write 18 false ::
          [.timerFire, .ackArrive true 18 2, .timerFire])).2 = 1) ∧
    (runLL ⟨true, 1, false, 0, 3, false, none⟩ [.write 18 true]).2 =
      [.cbFired .ackImmediate false, .transportWrite 18 0]) :=
  ⟨by decide, by decide,
    claim3_callback_once ⟨true, 1, false, 0, 3, false, none⟩ 18
      [.timerFire, .ackArrive true 18 2, .timerFire] (by decide) (by decide)⟩

theorem runLL_timer_noop (k : Nat) (s : LLState) (h : s.timerArmed = false) :
    runLL s (List.replicate k .timerFire) = (s, []) := by
  induction k with
  | zero => rfl
  | succ n ih =>
    rw [List.replicate_succ]
    have hstep : step s .timerFire = (s, []) := by
      simp [step, h]
    simp only [runLL, hstep, ih, List.nil_append]

theorem runLL_resend (n : Nat) :
    ∀ (s : LLState) (k : Nat) (m : LLMsg),
      s.timerArmed = true → s.callbackWrite = true → s.message = some m →
      s.retryTimes - s.resentTimes = n → n < k →
      (runLL s (List.replicate k .timerFire)).2 =
        List.replicate n (.transportWrite m.mid m.seq) ++
          [.cbFired .timeoutExhausted true] ∧
      (runLL s (List.replicate k .timerFire)).1.callbackWrite = false ∧
      (runLL s (List.replicate k .timerFire)).1.timerArmed = false := by
  induction n with
  | zero =>
    intro s k m ht hc hm hn hk
    obtain ⟨k', rfl⟩ : ∃ k', k = k' + 1 := ⟨k - 1, by omega⟩
    have hr : ¬ s.resentTimes < s.retryTimes := by omega
    have hstep : step s .timerFire =
        ({ s with timerArmed := false, resentTimes := 0, callbackWrite := false },
          [.cbFired .timeoutExhausted true]) := by
      simp [step, ht, hr, hc]
    rw [List.replicate_succ]
    simp only [runLL, hstep,
      runLL_timer_noop k'
        { s with timerArmed := false, resentTimes := 0, callbackWrite := false }
        rfl]
    simp
  | succ n ih =>
    intro s k m ht hc hm hn hk
    obtain ⟨k', rfl⟩ : ∃ k', k = k' + 1 := ⟨k - 1, by omega⟩
    have hr : s.resentTimes < s.retryTimes := by omega
    have hstep : step s .timerFire =
        ({ s with resentTimes := s.resentTimes + 1 },
          [.transportWrite m.mid m.seq]) := by
      simp [step, ht, hr, hm]
    obtain ⟨ih1, ih2, ih3⟩ :=
      ih { s with resentTimes := s.resentTimes + 1 } k' m (by simp [ht])
        (by simp [hc]) (by simp [hm]) (by simp; omega) (by omega)
    rw [List.replicate_succ]
    simp only [runLL, hstep, ih1, ih2, ih3]
    refine ⟨?_, trivial, trivial⟩
    rw [List.replicate_succ]
    simp

/-- C8: in active mode, a non-ack write (of a mid other than the link-layer
ACK mids 9997/9998) that never receives an ACK is retransmitted by the timer
until `resentTimes` reaches `retryTimes`: over any run with more than
`retryTimes` timer fires, the transport observes exactly `1 + retryTimes`
writes of the same message bytes (the initial write plus `retryTimes`
resends), after which the completion callback fires with a Timeout error and
the pending-write slot and retransmit timer are cleared, every later timer
fire doing nothing. -/
theorem claim8_retry_exhaustion (s₀ : LLState) (mid : Nat) (k : Nat)
    (hact : s₀.linkLayerActive = true)
    (hmid : ¬(mid = 9997 ∨ mid = 9998))
    (hk : s₀.retryTimes < k) :
    (runLL s₀ (.write mid false :: List.replicate k .timerFire)).2 =
      .transportWrite mid s₀.sequenceNumber ::
        (List.replicate s₀.retryTimes
            (.transportWrite mid s₀.sequenceNumber) ++
          [.cbFired .timeoutExhausted true]) ∧
    (runLL s₀
        (.write mid false :: List.replicate k .timerFire)).1.callbackWrite =
      false ∧
    (runLL s₀
        (.write mid false :: List.replicate k .timerFire)).1.timerArmed =
      false := by
  have hstep : step s₀ (.write mid false) =
      ({ s₀ with callbackWrite := true, resentTimes := 0, sequenceNumber := (if 99 < s₀.sequenceNumber + 1 then 1 else s₀.sequenceNumber + 1), timerArmed := true, message := some ⟨mid, s₀.sequenceNumber⟩ },
        [.transportWrite mid s₀.sequenceNumber]) := by
    simp [step, hmid, hact]
  obtain ⟨r1, r2, r3⟩ := runLL_resend s₀.retryTimes
    { s₀ with callbackWrite := true, resentTimes := 0, sequenceNumber := (if 99 < s₀.sequenceNumber + 1 then 1 else s₀.sequenceNumber + 1), timerArmed := true, message := some ⟨mid, s₀.sequenceNumber⟩ }
    k ⟨mid, s₀.sequenceNumber⟩ (by simp) (by simp) (by simp) (by simp) hk
  simp only [runLL, hstep, r1, r2, r3, List.singleton_append]
  exact ⟨trivial, trivial, trivial⟩

theorem claim8_retry_exhaustion_witness :
    (⟨true, 1, false, 0, 3, false, none⟩ : LLState).linkLayerActive = true ∧
    ¬((18 : Nat) = 9997 ∨ (18 : Nat) = 9998) ∧
    (⟨true, 1, false, 0, 3, false, none⟩ : LLState).retryTimes < 4 ∧
    ((runLL ⟨true, 1, false, 0, 3, false, none⟩
        (.write 18 false :: List.replicate 4 .timerFire)).2 =
      .transportWrite 18 1 ::
        (List.replicate 3 (.transportWrite 18 1) ++
          [.cbFired .timeoutExhausted true]) ∧
    (runLL ⟨true, 1, false, 0, 3, false, none⟩
        (.write 18 false ::
          List.replicate 4 .timerFire)).1.callbackWrite = false ∧
    (runLL ⟨true, 1, false, 0, 3, false, none⟩
        (.write 18 false ::
          List.replicate 4 .timerFire)).1.timerArmed = false) :=
  ⟨by decide, by decide, by decide,
    claim8_retry_exhaustion ⟨true, 1, false, 0, 3, false, none⟩ 18 4
      (by decide) (by decide) (by decide)⟩

/-- C6 (amended): when the MID or header serializer errors on a non-ack
write, the LinkLayer emits the error on the errorSerializer channel and
completes the just-stored callback, and in active mode it decrements the
post-increment sequence number, so that for assigned sequence numbers up to
98 the next non-ack write reuses exactly the sequence number of the failed
write.  Amended from the original claim: the callback is invoked with NO
error argument (`cb()`), and the reuse guarantee breaks at sequence number
99, where the post-increment wrap to 1 makes the decrement yield 0. -/
theorem claim6_serializer_error (s : LLState) (mid mid' : Nat)
    (hact : s.linkLayerActive = true)
    (hseq1 : 1 ≤ s.sequenceNumber) (hseq2 : s.sequenceNumber ≤ 98) :
    (step s (.writeSerErr mid)).2 =
      [.cbFired .serializerError false, .emitErrorSerializer] ∧
    (step s (.writeSerErr mid)).1.sequenceNumber = s.sequenceNumber ∧
    (step s (.writeSerErr mid)).1.callbackWrite = false ∧
    (runLL s [.writeSerErr mid, .write mid' false]).2 =
      [.cbFired .serializerError false, .emitErrorSerializer,
        .transportWrite mid' s.sequenceNumber] := by
  have hw : (99 < s.sequenceNumber + 1) = False := eq_false (by omega)
  refine ⟨by simp [step], ?_, by simp [step], ?_⟩
  · simp [step, hact, hw]
  · by_cases hm' : mid' = 9997 ∨ mid' = 9998 <;>
      simp [runLL, step, hact, hw, hm']

/-- C6 counterexample: the claim as stated fails on the code in two ways.
With the link layer active at sequence number 99, a failed write is assigned
99 but the wrap in `_write` (100 becomes 1) followed by the decrement in
`_onErrorSerializer` leaves the counter at 0, so the next write is assigned
sequence number 0, not 99; and the completion callback of the failed write
receives no error argument (the model records `withError = false`, never the
claimed invocation with the error). -/
theorem claim6_serializer_error_counterexample :
    (runLL ⟨true, 99, false, 0, 3, false, none⟩
        [.writeSerErr 18, .write 19 false]).2 =
      [.cbFired .serializerError false, .emitErrorSerializer,
        .transportWrite 19 0] ∧
    (0 : Int) ≠ 99 ∧
    (LLAction.cbFired .serializerError true) ∉
      (runLL ⟨true, 99, false, 0, 3, false, none⟩ [.writeSerErr 18]).2 := by
  decide

theorem claim6_serializer_error_witness :
    (⟨true, 7, false, 0, 3, false, none⟩ : LLState).linkLayerActive = true ∧
    1 ≤ (⟨true, 7, false, 0, 3, false, none⟩ : LLState).sequenceNumber ∧
    (⟨true, 7, false, 0, 3, false, none⟩ : LLState).sequenceNumber ≤ 98 ∧
    ((step ⟨true, 7, false, 0, 3, false, none⟩ (.writeSerErr 18)).2 =
      [.cbFired .serializerError false, .emitErrorSerializer] ∧
    (step ⟨true, 7, false, 0, 3, false, none⟩
        (.writeSerErr 18)).1.sequenceNumber =
      (⟨true, 7, false, 0, 3, false, none⟩ : LLState).sequenceNumber ∧
    (step ⟨true, 7, false, 0, 3, false, none⟩
        (.writeSerErr 18)).1.callbackWrite = false ∧
    (runLL ⟨true, 7, false, 0, 3, false, none⟩
        [.writeSerErr 18, .write 19 false]).2 =
      [.cbFired .serializerError false, .emitErrorSerializer,
        .transportWrite 19
          (⟨true, 7, false, 0, 3, false, none⟩ : LLState).sequenceNumber]) :=
  ⟨by decide, by decide, by decide,
    claim6_serializer_error ⟨true, 7, false, 0, 3, false, none⟩ 18 19
      (by decide) (by decide) (by decide)⟩

/-!
Repeating-record readers of src/src/mid/9999.js.  `processDataFields` is
lenient: any malformed sub-field or short buffer stops the loop and keeps the
records parsed so far (the function never reports an error, so its model
returns a plain list).  `processResolutionFields` is strict: any malformed
sub-field calls back with an error and abandons the whole parse (modelled as
`Except Unit`).
-/

/-- `s.match(/^\d+$/)`: nonempty and all decimal digits. -/
def digitsOnly (l : List Nat) : Bool := !l.isEmpty && l.all isDigitB

/-- One Data Field record as stored by `processDataFields`: `parameterID`,
`unit` and `dataValue` are kept as (trimmed) strings, the numeric fields as
numbers. -/
structure DataField where
  parameterID : List Nat
  length : Nat
  dataType : Nat
  unit : List Nat
  stepNumber : Nat
  dataValue : List Nat
deriving DecidableEq, Repr

/-- One Resolution Field record as stored by `processResolutionFields`. -/
structure ResolutionField where
  firstIndex : Nat
  lastIndex : Nat
  length : Nat
  dataType : Nat
  unit : List Nat
  timeValue : List Nat
deriving DecidableEq, Repr

/-- One iteration body of `processDataFields`: a record of parameterID(5)
length(3) dataType(2) unit(3) stepNumber(4) dataValue(`length`) read at
`pos`, together with the position after it; `none` on any malformed
sub-field or shortage of bytes (every `break` of the source loop). -/
def readDataField (buffer : List Nat) (pos : Nat) : Option (DataField × Nat) :=
  if buffer.length < pos + 17 then none
  else
    if digitsOnly (jsTrim (bufStr buffer pos (pos + 5))) then
      match jsNum (bufStr buffer (pos + 5) (pos + 8)) with
      | none => none
      | some lengthVal =>
        match jsNum (bufStr buffer (pos + 8) (pos + 10)) with
        | none => none
        | some dataTypeVal =>
          if digitsOnly (jsTrim (bufStr buffer (pos + 10) (pos + 13))) then
            match jsNum (bufStr buffer (pos + 13) (pos + 17)) with
            | none => none
            | some stepNumVal =>
              if buffer.length < pos + 17 + lengthVal then none
              else
                some (⟨jsTrim (bufStr buffer pos (pos + 5)), lengthVal,
                  dataTypeVal, jsTrim (bufStr buffer (pos + 10) (pos + 13)),
                  stepNumVal,
                  jsTrim (bufStr buffer (pos + 17) (pos + 17 + lengthVal))⟩,
                  pos + 17 + lengthVal)
          else none
    else none

/-- The `while (control < count)` loop of `processDataFields`: on the first
record `readDataField` cannot parse, the loop breaks with the records read so
far. -/
def processDataFields (buffer : List Nat) : Nat → Nat → List DataField
  | 0, _ => []
  | c + 1, pos =>
    match readDataField buffer pos with
    | none => []
    | some (f, next) => f :: processDataFields buffer c next

/-- Result of `processResolutionFields`: an error callback or the list of
records. -/
inductive ResOut where
  | err
  | ok (fields : List ResolutionField)
deriving DecidableEq, Repr

/-- `processResolutionFields(message, buffer, parameter, count, position,
cb)`: reads `count` records of firstIndex(5) lastIndex(5) length(3)
dataType(2) unit(3) timeValue(`length`); a non-numeric firstIndex, lastIndex,
length, dataType or unit, or an empty trimmed unit or timeValue, fails the
whole parse. -/
def processResolutionFields (buffer : List Nat) : Nat → Nat → ResOut
  | 0, _ => .ok []
  | c + 1, pos =>
    match jsNum (bufStr buffer pos (pos + 5)) with
    | none => .err
    | some firstIndexVal =>
      match jsNum (bufStr buffer (pos + 5) (pos + 10)) with
      | none => .err
      | some lastIndexVal =>
        match jsNum (bufStr buffer (pos + 10) (pos + 13)) with
        | none => .err
        | some lengthVal =>
          match jsNum (bufStr buffer (pos + 13) (pos + 15)) with
          | none => .err
          | some dataTypeVal =>
            if digitsOnly (jsTrim (bufStr buffer (pos + 15) (pos + 18))) then
              if (jsTrim (bufStr buffer (pos + 18)
                  (pos + 18 + lengthVal))).isEmpty then .err
              else
                match processResolutionFields buffer c
                    (pos + 18 + lengthVal) with
                | .err => .err
                | .ok rest =>
                  .ok (⟨firstIndexVal, lastIndexVal, lengthVal, dataTypeVal,
                      jsTrim (bufStr buffer (pos + 15) (pos + 18)),
                      jsTrim (bufStr buffer (pos + 18)
                        (pos + 18 + lengthVal))⟩ :: rest)
            else .err

theorem processDataFields_le (buffer : List Nat) :
    ∀ c p, (processDataFields buffer c p).length ≤ c := by
  intro c
  induction c with
  | zero => intro p; simp [processDataFields]
  | succ n ih =>
    intro p
    simp only [processDataFields]
    match h : readDataField buffer p with
    | none => simp
    | some (f, next) => simpa using ih next

theorem readDataField_short (buffer : List Nat) (p : Nat)
    (h : buffer.length < p + 17) : readDataField buffer p = none := by
  rw [readDataField, if_pos h]

theorem readDataField_badPid (buffer : List Nat) (p : Nat)
    (h : digitsOnly (jsTrim (bufStr buffer p (p + 5))) = false) :
    readDataField buffer p = none := by
  by_cases hs : buffer.length < p + 17
  · rw [readDataField, if_pos hs]
  · rw [readDataField, if_neg hs, if_neg (by rw [h]; exact Bool.false_ne_true)]

theorem processDataFields_stop (buffer : List Nat) (c p : Nat)
    (h : readDataField buffer p = none) :
    processDataFields buffer (c + 1) p = [] := by
  simp only [processDataFields, h]

set_option maxHeartbeats 2000000 in
/-- C9: Data Field parsing is lenient and Resolution Field parsing is
strict.  `processDataFields` never fails a message: it returns at most
`count` records, and both a buffer too short for the next record's 17-byte
fixed portion and a malformed (non-numeric) parameterID merely end the loop
with the records read so far.  `processResolutionFields` fails the whole
parse with an error when a sub-field is malformed, e.g. a non-numeric
firstIndex.  On concrete buffers whose second record is garbage ("QWERT"),
the data-field reader returns exactly the first record while the
resolution-field reader rejects everything, and on a clean buffer the
resolution-field reader returns the decoded record. -/
theorem claim9_field_strictness (buffer : List Nat) :
    (∀ c p, (processDataFields buffer c p).length ≤ c) ∧
    (∀ c p, buffer.length < p + 17 →
      processDataFields buffer (c + 1) p = []) ∧
    (∀ c p, digitsOnly (jsTrim (bufStr buffer p (p + 5))) = false →
      processDataFields buffer (c + 1) p = []) ∧
    (∀ c p, jsNum (bufStr buffer p (p + 5)) = none →
      processResolutionFields buffer (c + 1) p = .err) ∧
    processDataFields [53, 52, 51, 50, 49, 48, 48, 51, 48, 49, 49, 49, 53,
        48, 48, 48, 49, 97, 98, 99, 81, 87, 69, 82, 84, 48, 48, 51, 48, 49,
        49, 49, 53, 48, 48, 48, 49] 2 0 =
      [⟨[53, 52, 51, 50, 49], 3, 1, [49, 49, 53], 1, [97, 98, 99]⟩] ∧
    processResolutionFields [53, 52, 51, 50, 49, 57, 56, 55, 54, 53, 48, 48,
        53, 48, 53, 51, 53, 51, 65, 66, 67, 68, 69, 81, 87, 69, 82, 84] 2 0 =
      .err ∧
    processResolutionFields [53, 52, 51, 50, 49, 57, 56, 55, 54, 53, 48, 48,
        53, 48, 53, 51, 53, 51, 65, 66, 67, 68, 69] 1 0 =
      .ok [⟨54321, 98765, 5, 5, [51, 53, 51], [65, 66, 67, 68, 69]⟩] := by
  refine ⟨processDataFields_le buffer, ?_, ?_, ?_, by decide, by decide,
    by decide⟩
  · intro c p h
    exact processDataFields_stop buffer c p (readDataField_short buffer p h)
  · intro c p h
    exact processDataFields_stop buffer c p (readDataField_badPid buffer p h)
  · intro c p h
    simp only [processResolutionFields, h]
